import Mathlib

/-!
Verification of the hermit secure-transport library (hermit-lib) against its
natural-language specification.  The definitions below are a shallow
embedding of the Rust sources: bytes are `Nat` (with explicit `% 256` /
`% 65536` where machine truncation matters), byte buffers are `List Nat`,
fallible operations return `Except`/`Option`, and the external `ring`
cryptography primitives (Ed25519, X25519, HKDF-SHA256, SHA-256, AES-128-GCM)
are uninterpreted function parameters whose documented contracts appear as
explicit hypotheses of the theorems that need them.
-/

deriving instance DecidableEq for Except

namespace Hermit

/-! ## Constants (src/hermit-lib/src/crypto/mod.rs, src/proto/plain/header.rs) -/

/-- `NONCE_LEN` from crypto/mod.rs. -/
def NONCE_LEN : Nat := 16

/-- `ED25519_SIGNATURE_LEN` from crypto/mod.rs. -/
def ED25519_SIGNATURE_LEN : Nat := 64

/-- `X25519_PUBLIC_KEY_LEN` from crypto/mod.rs. -/
def X25519_PUBLIC_KEY_LEN : Nat := 32

/-- `SIGNED_CONTENT_LEN = 2 * NONCE_LEN + X25519_PUBLIC_KEY_LEN` from crypto/mod.rs. -/
def SIGNED_CONTENT_LEN : Nat := 2 * NONCE_LEN + X25519_PUBLIC_KEY_LEN

/-- `AEAD_KEY_LEN` from crypto/mod.rs. -/
def AEAD_KEY_LEN : Nat := 16

/-- `ring::aead::NONCE_LEN` (12), used for the AEAD nonce base. -/
def AEAD_NONCE_LEN : Nat := 12

/-- `ring::aead::MAX_TAG_LEN`, re-exported as `TAG_LEN` in proto/message.rs. -/
def TAG_LEN : Nat := 16

/-- `MSG_HEADER_LEN` from proto/plain/header.rs. -/
def MSG_HEADER_LEN : Nat := 4

/-- Modelled from the spec: `MIN_LEN_LIMIT` is imported from
`crate::proto::message` throughout src/ but its definition is not among the
source files; spec section 6 fixes it to `2^10 - 1 = 1023`. -/
def MIN_LEN_LIMIT : Nat := 1023

/-- Modelled from the spec: `MAX_LEN_LIMIT` is imported from
`crate::proto::message` throughout src/ but its definition is not among the
source files; spec section 6 fixes it to `2^15 - 1 = 32767`. -/
def MAX_LEN_LIMIT : Nat := 32767

/-! ## Generic byte-buffer helpers -/

/-- In-place `copy_from_slice` into `dst[start .. start + src.length]`,
as used by the buffer-filling code in crypto/mod.rs and macros.rs. -/
def setSlice (dst : List Nat) (start : Nat) (src : List Nat) : List Nat :=
  dst.take start ++ src ++ dst.drop (start + src.length)

theorem setSlice_append (pre mid post src : List Nat) (h : mid.length = src.length) :
    setSlice (pre ++ mid ++ post) pre.length src = pre ++ src ++ post := by
  have h1 : (pre ++ mid ++ post).take pre.length = pre := by
    rw [List.append_assoc]
    exact List.take_left pre (mid ++ post)
  have h2 : (pre ++ mid ++ post).drop (pre.length + src.length) = post := by
    have hlen : (pre ++ mid).length = pre.length + src.length := by simp [h]
    rw [← hlen]
    exact List.drop_left (pre ++ mid) post
  unfold setSlice
  rw [h1, h2]

/-- `u64::to_be_bytes` of a counter value. -/
def beBytes8 (c : Nat) : List Nat :=
  [c / 2 ^ 56 % 256, c / 2 ^ 48 % 256, c / 2 ^ 40 % 256, c / 2 ^ 32 % 256,
   c / 2 ^ 24 % 256, c / 2 ^ 16 % 256, c / 2 ^ 8 % 256, c % 256]

theorem beBytes8_injOn {i j : Nat} (hi : i < 2 ^ 64) (hj : j < 2 ^ 64)
    (h : beBytes8 i = beBytes8 j) : i = j := by
  simp only [beBytes8, List.cons.injEq, and_true] at h
  obtain ⟨h1, h2, h3, h4, h5, h6, h7, h8⟩ := h
  omega

/-! ## Error types (src/hermit-lib/src/error.rs) -/

/-- `error::CryptoError`. -/
inductive CryptoError where
  | Unspecified
  | KeyRejected
  | BadServerHelloSignature
  | BadServerPublicKey
deriving DecidableEq, Repr

/-- `error::InvalidMessageError` (the variants exercised by the embedded code). -/
inductive InvalidMessageError where
  | MessageType (b : Nat)
  | ProtocolVersionUnknown (b : Nat)
  | PayloadLengthOutOfRange (length : Nat)
  | PayloadLengthAboveLimit (length limit : Nat)
  | PayloadLengthMismatch (expected actual : Nat)
deriving DecidableEq, Repr

/-- `error::LenLimitAdjustmentError`. -/
inductive LenLimitAdjustmentError where
  | OngoingRequest (l : Nat)
  | InvalidLimit (l : Nat)
  | NoOngoingRequest
deriving DecidableEq, Repr

/-- `error::Error` (the variants exercised by the embedded code; `IONetwork`
stands for any transport I/O failure). -/
inductive Error where
  | Crypto (e : CryptoError)
  | IONetwork
  | MessageParsing (e : InvalidMessageError)
  | LenLimitAdjustment (e : LenLimitAdjustmentError)
deriving DecidableEq, Repr

/-! ## Plain frame header (src/hermit-lib/src/proto/plain/header.rs) -/

/-- `PlainMessageType` with its `#[repr(u8)]` discriminants. -/
inductive PlainMessageType where
  | Secure
  | ClientHello
  | ServerHello
  | Disconnect
  | Downgrade
  | AdjustLenLimitRequest
  | AdjustLenLimitResponse
deriving DecidableEq, Repr

/-- `u8::from(PlainMessageType)` via `IntoPrimitive`. -/
def PlainMessageType.toU8 : PlainMessageType → Nat
  | .Secure => 0x00
  | .ClientHello => 0x01
  | .ServerHello => 0x02
  | .Disconnect => 0x03
  | .Downgrade => 0x04
  | .AdjustLenLimitRequest => 0x10
  | .AdjustLenLimitResponse => 0x11

/-- `PlainMessageType::try_from(u8)` via `TryFromPrimitive`. -/
def PlainMessageType.ofU8 : Nat → Except InvalidMessageError PlainMessageType
  | 0x00 => .ok .Secure
  | 0x01 => .ok .ClientHello
  | 0x02 => .ok .ServerHello
  | 0x03 => .ok .Disconnect
  | 0x04 => .ok .Downgrade
  | 0x10 => .ok .AdjustLenLimitRequest
  | 0x11 => .ok .AdjustLenLimitResponse
  | b => .error (.MessageType b)

/-- `ProtocolVersion` from proto/mod.rs; `V0_1 = 0x01`. -/
inductive ProtocolVersion where
  | V0_1
deriving DecidableEq, Repr

/-- `u8::from(ProtocolVersion)`. -/
def ProtocolVersion.toU8 : ProtocolVersion → Nat
  | .V0_1 => 0x01

/-- `ProtocolVersion::try_from(u8)`. -/
def ProtocolVersion.ofU8 : Nat → Except InvalidMessageError ProtocolVersion
  | 0x01 => .ok .V0_1
  | b => .error (.ProtocolVersionUnknown b)

/-- `CURRENT_PROTOCOL_VERSION` from proto/mod.rs. -/
def CURRENT_PROTOCOL_VERSION : ProtocolVersion := .V0_1

/-- `MessageHeader` from proto/plain/header.rs. -/
structure MessageHeader where
  plainMsgType : PlainMessageType
  version : ProtocolVersion
  length : Nat
deriving DecidableEq, Repr

/-- `From<MessageHeader> for [u8; MSG_HEADER_LEN]`: type byte, version byte,
and the big-endian bytes of `length as u16` (truncating to 16 bits). -/
def MessageHeader.toBytes (h : MessageHeader) : List Nat :=
  [h.plainMsgType.toU8, h.version.toU8, h.length % 65536 / 256, h.length % 256]

/-- `TryFrom<&[u8; MSG_HEADER_LEN]> for MessageHeader`: validates the type and
version bytes and reads `length` as big-endian u16.  Note there is no
validation of the length value itself. -/
def MessageHeader.tryFrom4 (t v l1 l2 : Nat) : Except InvalidMessageError MessageHeader :=
  match PlainMessageType.ofU8 t with
  | .error e => .error e
  | .ok pt =>
    match ProtocolVersion.ofU8 v with
    | .error e => .error e
    | .ok pv => .ok ⟨pt, pv, l1 * 256 + l2⟩

/-! ## Plain message (src/hermit-lib/src/proto/plain/message.rs) -/

/-- `Message`: a parsed header plus the payload bytes. -/
structure Message where
  header : MessageHeader
  payload : List Nat
deriving DecidableEq, Repr

/-- `Message::new`: the header records the current protocol version and the
payload's actual length. -/
def Message.new (t : PlainMessageType) (payload : List Nat) : Message :=
  ⟨⟨t, CURRENT_PROTOCOL_VERSION, payload.length⟩, payload⟩

/-- Modelled from the spec: `Message::byte_len` is called by the sink code in
proto/plain/stream.rs and proto/plain/channel.rs but its definition is not
among the source files.  Per the sink invariant comment
(`total_byte_len <= limit_multiplier * len_limit`, spec section 4.1) it is the
frame's payload byte count. -/
def Message.byte_len (m : Message) : Nat := m.payload.length

/-- The bytes `InnerSink::send` writes for one frame
(proto/plain/stream.rs): the four header bytes followed by the payload. -/
def serializeFrame (m : Message) : List Nat :=
  m.header.toBytes ++ m.payload

/-- `InnerStream::recv` (proto/plain/stream.rs lines 124-134): read exactly 4
header bytes, parse them (`Message::raw`, which validates only type and
version), then read exactly `length` payload bytes and yield the frame.  The
`lenLimit` field of `InnerStream` is never consulted here, which the first
parameter mirrors. -/
def InnerStream.recv (_lenLimit : Nat) (input : List Nat) :
    Except Error (Message × List Nat) :=
  match input with
  | t :: v :: l1 :: l2 :: rest =>
    match MessageHeader.tryFrom4 t v l1 l2 with
    | .error e => .error (.MessageParsing e)
    | .ok h =>
      if rest.length < h.length then .error .IONetwork
      else .ok (⟨h, rest.take h.length⟩, rest.drop h.length)
  | _ => .error .IONetwork

/-- `PlainStream::send_check` (proto/plain/stream.rs lines 196-218): the
outbound sanity check against the range and the current limit. -/
def send_check (lenLimit : Nat) (msg : Message) : Except InvalidMessageError Unit :=
  let len := msg.payload.length
  if ¬(MIN_LEN_LIMIT ≤ len ∧ len ≤ MAX_LEN_LIMIT) then
    .error (.PayloadLengthOutOfRange len)
  else if len > lenLimit then
    .error (.PayloadLengthAboveLimit len lenLimit)
  else if msg.header.length ≠ len then
    .error (.PayloadLengthMismatch msg.header.length len)
  else
    .ok ()

/-- `PlainStream::set_len_limit` / `PlainChannel::set_len_limit`: clamp into
`[MIN_LEN_LIMIT, MAX_LEN_LIMIT]` and store. -/
def set_len_limit (l : Nat) : Nat :=
  max MIN_LEN_LIMIT (min l MAX_LEN_LIMIT)

/-! ## Plain message structs (src/hermit-lib/src/proto/plain/handshake.rs,
src/hermit-lib/src/proto/plain/len_limit.rs) and their conversions generated
by the `plain_msg!` macro (src/hermit-lib/src/macros.rs). -/

/-- `CLIENT_HELLO_MSG_LEN = NONCE_LEN + X25519_PUBLIC_KEY_LEN`. -/
def CLIENT_HELLO_MSG_LEN : Nat := NONCE_LEN + X25519_PUBLIC_KEY_LEN

/-- `SERVER_HELLO_MSG_LEN = NONCE_LEN + X25519_PUBLIC_KEY_LEN + ED25519_SIGNATURE_LEN`. -/
def SERVER_HELLO_MSG_LEN : Nat :=
  NONCE_LEN + X25519_PUBLIC_KEY_LEN + ED25519_SIGNATURE_LEN

/-- `ClientHelloMessage`: a 16-byte nonce and a 32-byte X25519 public key. -/
structure ClientHelloMessage where
  nonce : List Nat
  publicKeyBytes : List Nat
deriving DecidableEq, Repr

/-- `From<ClientHelloMessage> for Message` (plain_msg! expansion): a zeroed
payload of the fixed length with each field copied in at its offset. -/
def ClientHelloMessage.toMessage (m : ClientHelloMessage) : Message :=
  Message.new .ClientHello
    (setSlice (setSlice (List.replicate CLIENT_HELLO_MSG_LEN 0) 0 m.nonce)
      NONCE_LEN m.publicKeyBytes)

/-- `TryFrom<Message> for ClientHelloMessage` (plain_msg! expansion): check
the payload length, then slice out the fields. -/
def ClientHelloMessage.tryFromMessage (msg : Message) :
    Except InvalidMessageError ClientHelloMessage :=
  let bytes := msg.payload
  if bytes.length ≠ CLIENT_HELLO_MSG_LEN then
    .error (.PayloadLengthMismatch CLIENT_HELLO_MSG_LEN bytes.length)
  else
    .ok ⟨bytes.take NONCE_LEN, (bytes.drop NONCE_LEN).take X25519_PUBLIC_KEY_LEN⟩

/-- `ServerHelloMessage`: 16-byte nonce, 32-byte X25519 public key, 64-byte
Ed25519 signature. -/
structure ServerHelloMessage where
  nonce : List Nat
  publicKeyBytes : List Nat
  signature : List Nat
deriving DecidableEq, Repr

/-- `From<ServerHelloMessage> for Message` (plain_msg! expansion). -/
def ServerHelloMessage.toMessage (m : ServerHelloMessage) : Message :=
  Message.new .ServerHello
    (setSlice
      (setSlice (setSlice (List.replicate SERVER_HELLO_MSG_LEN 0) 0 m.nonce)
        NONCE_LEN m.publicKeyBytes)
      (NONCE_LEN + X25519_PUBLIC_KEY_LEN) m.signature)

/-- `TryFrom<Message> for ServerHelloMessage` (plain_msg! expansion). -/
def ServerHelloMessage.tryFromMessage (msg : Message) :
    Except InvalidMessageError ServerHelloMessage :=
  let bytes := msg.payload
  if bytes.length ≠ SERVER_HELLO_MSG_LEN then
    .error (.PayloadLengthMismatch SERVER_HELLO_MSG_LEN bytes.length)
  else
    .ok ⟨bytes.take NONCE_LEN,
      (bytes.drop NONCE_LEN).take X25519_PUBLIC_KEY_LEN,
      (bytes.drop (NONCE_LEN + X25519_PUBLIC_KEY_LEN)).take ED25519_SIGNATURE_LEN⟩

/-- `DisconnectMessage` (empty payload). -/
structure DisconnectMessage where
deriving DecidableEq, Repr

/-- `From<DisconnectMessage> for Message` (plain_msg! empty expansion). -/
def DisconnectMessage.toMessage (_ : DisconnectMessage) : Message :=
  Message.new .Disconnect []

/-- `TryFrom<Message> for DisconnectMessage` (plain_msg! empty expansion). -/
def DisconnectMessage.tryFromMessage (msg : Message) :
    Except InvalidMessageError DisconnectMessage :=
  if msg.payload.length ≠ 0 then
    .error (.PayloadLengthMismatch 0 msg.payload.length)
  else
    .ok ⟨⟩

/-- `DowngradeMessage` (empty payload). -/
structure DowngradeMessage where
deriving DecidableEq, Repr

/-- `From<DowngradeMessage> for Message` (plain_msg! empty expansion). -/
def DowngradeMessage.toMessage (_ : DowngradeMessage) : Message :=
  Message.new .Downgrade []

/-- `TryFrom<Message> for DowngradeMessage` (plain_msg! empty expansion). -/
def DowngradeMessage.tryFromMessage (msg : Message) :
    Except InvalidMessageError DowngradeMessage :=
  if msg.payload.length ≠ 0 then
    .error (.PayloadLengthMismatch 0 msg.payload.length)
  else
    .ok ⟨⟩

/-- `AdjustLenLimitRequest`: the new limit as 2 big-endian bytes. -/
structure AdjustLenLimitRequest where
  lenLimit : List Nat
deriving DecidableEq, Repr

/-- `AdjustLenLimitRequest::try_from(usize)`: range-check then encode as
big-endian u16. -/
def AdjustLenLimitRequest.tryFromUsize (value : Nat) :
    Except LenLimitAdjustmentError AdjustLenLimitRequest :=
  if ¬(MIN_LEN_LIMIT ≤ value ∧ value ≤ MAX_LEN_LIMIT) then
    .error (.InvalidLimit value)
  else
    .ok ⟨[value % 65536 / 256, value % 256]⟩

/-- `usize::from(AdjustLenLimitRequest)`: decode the big-endian u16. -/
def AdjustLenLimitRequest.toUsize (r : AdjustLenLimitRequest) : Nat :=
  r.lenLimit.getD 0 0 * 256 + r.lenLimit.getD 1 0

/-- `From<AdjustLenLimitRequest> for Message` (plain_msg! expansion). -/
def AdjustLenLimitRequest.toMessage (m : AdjustLenLimitRequest) : Message :=
  Message.new .AdjustLenLimitRequest (setSlice (List.replicate 2 0) 0 m.lenLimit)

/-- `TryFrom<Message> for AdjustLenLimitRequest` (plain_msg! expansion). -/
def AdjustLenLimitRequest.tryFromMessage (msg : Message) :
    Except InvalidMessageError AdjustLenLimitRequest :=
  if msg.payload.length ≠ 2 then
    .error (.PayloadLengthMismatch 2 msg.payload.length)
  else
    .ok ⟨msg.payload.take 2⟩

/-- `AdjustLenLimitResponse`: the acceptance flag as one byte. -/
structure AdjustLenLimitResponse where
  hasAccepted : List Nat
deriving DecidableEq, Repr

/-- Modelled from the spec: `AdjustLenLimitResponse::new(bool)` is called in
client/mod.rs but not defined among the source files; per the wire format
(one byte, 0 or 1) and the `From<bool>` impl in proto/plain/len_limit.rs it
stores `value as u8`. -/
def AdjustLenLimitResponse.new (b : Bool) : AdjustLenLimitResponse :=
  ⟨[if b then 1 else 0]⟩

/-- Modelled from the spec: `AdjustLenLimitResponse::has_accepted` is called
in client/mod.rs but not defined among the source files; per the
`From<AdjustLenLimitResponse> for bool` impl it is `byte != 0`. -/
def AdjustLenLimitResponse.has_accepted (r : AdjustLenLimitResponse) : Bool :=
  r.hasAccepted.getD 0 0 ≠ 0

/-- `From<AdjustLenLimitResponse> for Message` (plain_msg! expansion). -/
def AdjustLenLimitResponse.toMessage (m : AdjustLenLimitResponse) : Message :=
  Message.new .AdjustLenLimitResponse (setSlice (List.replicate 1 0) 0 m.hasAccepted)

/-- `TryFrom<Message> for AdjustLenLimitResponse` (plain_msg! expansion). -/
def AdjustLenLimitResponse.tryFromMessage (msg : Message) :
    Except InvalidMessageError AdjustLenLimitResponse :=
  if msg.payload.length ≠ 1 then
    .error (.PayloadLengthMismatch 1 msg.payload.length)
  else
    .ok ⟨msg.payload.take 1⟩

/-! ## Nonce sequence (src/hermit-lib/src/crypto/secrets.rs) -/

/-- `NonceSequence`: a 12-byte base and a u64 counter starting at 0. -/
structure NonceSequence where
  base : List Nat
  counter : Nat
deriving DecidableEq, Repr

/-- `NonceSequence::new`. -/
def NonceSequence.new (base : List Nat) : NonceSequence := ⟨base, 0⟩

/-- `NonceSequence::xor`: XOR the big-endian bytes of the counter into the
last 8 bytes of the 12-byte base, via the indexed loop of the source
(`nonce[i + (NONCE_LEN - 8)] ^= byte`). -/
def NonceSequence.xor (base : List Nat) (counter : Nat) : List Nat :=
  (beBytes8 counter).enum.foldl
    (fun nonce p =>
      nonce.set (p.1 + (AEAD_NONCE_LEN - 64 / 8))
        (nonce.getD (p.1 + (AEAD_NONCE_LEN - 64 / 8)) 0 ^^^ p.2))
    base

/-- `NonceSequence::advance` (the `aead::NonceSequence` impl): emit
`xor(base, counter)` and increment the counter once. -/
def NonceSequence.advance (s : NonceSequence) : List Nat × NonceSequence :=
  (NonceSequence.xor s.base s.counter, ⟨s.base, s.counter + 1⟩)

/-- Iterated `advance`, discarding the emitted nonces. -/
def NonceSequence.advanceN (s : NonceSequence) : Nat → NonceSequence
  | 0 => s
  | n + 1 => (s.advanceN n).advance.2

/-- The i-th nonce emitted by a sequence started at counter 0 on a base. -/
def NonceSequence.emitted (base : List Nat) (i : Nat) : List Nat :=
  ((NonceSequence.new base).advanceN i).advance.1

/-! ## AEAD and session secrets (src/hermit-lib/src/crypto/secrets.rs).
`ring::aead::AES_128_GCM` is external to the repository; it is embedded as an
abstract cipher with `sealFn key nonce plaintext = (ciphertext, tag)` and
`openFn key nonce data = some plaintext | none`, and its documented AEAD
contract appears as hypotheses of the theorems that use it. -/

/-- An abstract AEAD primitive standing for `ring::aead::AES_128_GCM`. -/
structure Aead where
  sealFn : List Nat → List Nat → List Nat → List Nat × List Nat
  openFn : List Nat → List Nat → List Nat → Option (List Nat)

/-- A `ring` bound key: the key material plus its own `NonceSequence`
(ring's `SealingKey` / `OpeningKey`). -/
structure BoundAeadKey where
  key : List Nat
  nonceSeq : NonceSequence
deriving DecidableEq, Repr

/-- `SessionSecrets` from crypto/secrets.rs. -/
structure SessionSecrets where
  pseudorandomKey : List Nat
  sealingKey : BoundAeadKey
  openingKey : BoundAeadKey
deriving DecidableEq, Repr

/-- `SessionSecrets::new`: bind each unbound key with a fresh
`NonceSequence` on the shared nonce base. -/
def SessionSecrets.new (prk sealKey openKey nonceBase : List Nat) : SessionSecrets :=
  ⟨prk, ⟨sealKey, NonceSequence.new nonceBase⟩, ⟨openKey, NonceSequence.new nonceBase⟩⟩

/-- `SessionSecrets::seal` (crypto/secrets.rs lines 69-76): advance the
sealing key's nonce sequence, seal `payload[.. len - TAG_LEN]` in place,
copy the tag into the trailing `TAG_LEN` bytes, and wrap the buffer as a
`Secure` frame. -/
def SessionSecrets.seal (A : Aead) (s : SessionSecrets) (payload : List Nat) :
    Message × SessionSecrets :=
  let len := payload.length
  let (nonce, seq) := s.sealingKey.nonceSeq.advance
  let (c, tag) := A.sealFn s.sealingKey.key nonce (payload.take (len - TAG_LEN))
  let buf := c ++ payload.drop (len - TAG_LEN)
  let buf2 := buf.take (buf.length - TAG_LEN) ++ tag
  (Message.new .Secure buf2, { s with sealingKey := { s.sealingKey with nonceSeq := seq } })

/-- `SessionSecrets::open` (crypto/secrets.rs lines 77-81): advance the
opening key's nonce sequence, open the whole frame payload in place, and
return the buffer (plaintext followed by the spent tag region). -/
def SessionSecrets.open (A : Aead) (s : SessionSecrets) (m : Message) :
    Except CryptoError (List Nat × SessionSecrets) :=
  let (nonce, seq) := s.openingKey.nonceSeq.advance
  match A.openFn s.openingKey.key nonce m.payload with
  | none => .error .Unspecified
  | some p =>
    .ok (p ++ m.payload.drop (m.payload.length - TAG_LEN),
      { s with openingKey := { s.openingKey with nonceSeq := seq } })

/-- Flip bit `j` of byte `i` of a buffer. -/
def flipBit (l : List Nat) (i j : Nat) : List Nat :=
  l.set i (l.getD i 0 ^^^ 2 ^ j)

/-! ## Key agreement and key schedule (src/hermit-lib/src/crypto/mod.rs).
The `ring` primitives (Ed25519 verification, X25519 agreement, HKDF-SHA256,
SHA-256) are external to the repository and are embedded as abstract
functions bundled in `CryptoPrims`. -/

/-- The external `ring` primitives used by crypto/mod.rs: `verify pub msg sig`
is Ed25519 verification, `agree priv pub` is X25519 agreement (`None` for a
rejected peer key), `hkdfExtract salt ikm` is HKDF-SHA256 extract,
`hkdfExpand prk info len` is HKDF-SHA256 expand over a list of info parts,
and `sha256` is the SHA-256 digest. -/
structure CryptoPrims where
  verify : List Nat → List Nat → List Nat → Bool
  agree : List Nat → List Nat → Option (List Nat)
  hkdfExtract : List Nat → List Nat → List Nat
  hkdfExpand : List Nat → List (List Nat) → Nat → List Nat
  sha256 : List Nat → List Nat

/-- The bytes of the ASCII string of the client role info (`"client"`). -/
def clientInfoBytes : List Nat := [99, 108, 105, 101, 110, 116]

/-- The bytes of the ASCII string of the server role info (`"server"`). -/
def serverInfoBytes : List Nat := [115, 101, 114, 118, 101, 114]

/-- The bytes of the ASCII string of the second info part (`"master key"`). -/
def masterKeyInfoBytes : List Nat := [109, 97, 115, 116, 101, 114, 32, 107, 101, 121]

/-- The signed-content buffer built by `verify_server_hello`: a zeroed
64-byte array with the client nonce, server nonce and server public key
copied in at offsets 0, 16 and 32. -/
def signedContent (clientNonce serverNonce serverPublicKey : List Nat) : List Nat :=
  setSlice
    (setSlice (setSlice (List.replicate SIGNED_CONTENT_LEN 0) 0 clientNonce)
      NONCE_LEN serverNonce)
    (2 * NONCE_LEN) serverPublicKey

/-- `verify_server_hello` (crypto/mod.rs lines 50-73): build the signed
content, verify the Ed25519 signature against the server's public signing
key, and on success return the server's X25519 key bytes together with
`client_nonce || server_nonce`. -/
def verify_server_hello (prims : CryptoPrims) (msg : ServerHelloMessage)
    (clientNonce serverSigPubKey : List Nat) :
    Except CryptoError (List Nat × List Nat) :=
  let content := signedContent clientNonce msg.nonce msg.publicKeyBytes
  if prims.verify serverSigPubKey content msg.signature then
    .ok (msg.publicKeyBytes, content.take (2 * NONCE_LEN))
  else
    .error .BadServerHelloSignature

/-- `generate_pseudorandom_key` (crypto/mod.rs): X25519 agreement then
HKDF-SHA256 extract with the nonces as salt. -/
def generate_pseudorandom_key (prims : CryptoPrims)
    (ownPrivateKey otherPublicKey nonces : List Nat) :
    Except CryptoError (List Nat) :=
  match prims.agree ownPrivateKey otherPublicKey with
  | none => .error .BadServerPublicKey
  | some keyMaterial => .ok (prims.hkdfExtract nonces keyMaterial)

/-- `generate_master_key` (crypto/mod.rs lines 92-109): HKDF-Expand from the
PRK with info `[sender, "master key"]` to an AES-128-GCM key. -/
def generate_master_key (prims : CryptoPrims) (prk sender : List Nat) : List Nat :=
  prims.hkdfExpand prk [sender, masterKeyInfoBytes] AEAD_KEY_LEN

/-- `generate_nonce_base` (crypto/mod.rs): the first 12 bytes of
SHA-256 of the nonces. -/
def generate_nonce_base (prims : CryptoPrims) (nonces : List Nat) : List Nat :=
  (prims.sha256 nonces).take AEAD_NONCE_LEN

/-- `proto::Side`. -/
inductive Side where
  | Client
  | Server
deriving DecidableEq, Repr

/-- `generate_session_secrets` (crypto/mod.rs lines 111-137): pick the role
info strings by side (own role for sealing, peer role for opening), derive
the PRK, the two directional keys and the nonce base, and assemble the
`SessionSecrets`. -/
def generate_session_secrets (prims : CryptoPrims)
    (ownPrivateKey otherPublicKey nonces : List Nat) (ownSide : Side) :
    Except CryptoError SessionSecrets :=
  let (sendSideBytes, recvSideBytes) :=
    match ownSide with
    | .Client => (clientInfoBytes, serverInfoBytes)
    | .Server => (serverInfoBytes, clientInfoBytes)
  match generate_pseudorandom_key prims ownPrivateKey otherPublicKey nonces with
  | .error e => .error e
  | .ok prk =>
    let sendKey := generate_master_key prims prk sendSideBytes
    let recvKey := generate_master_key prims prk recvSideBytes
    let nonceBase := generate_nonce_base prims nonces
    .ok (SessionSecrets.new prk sendKey recvKey nonceBase)

/-! ## Outbound sink (src/hermit-lib/src/proto/plain/stream.rs,
`InnerSink`; the same drain logic appears in proto/plain/channel.rs). -/

/-- `InnerSink` state: the FIFO frame queue, the non-zero limit multiplier and
the running total byte length. -/
structure InnerSink where
  queue : List Message
  limit_multiplier : Nat
  total_byte_len : Nat
deriving DecidableEq, Repr

/-- `InnerSink::send`: pop the head frame, emit its serialized bytes, and
subtract its byte length from the running total.  `None` models the
precondition-violating `unwrap` panic on an empty queue. -/
def InnerSink.send (s : InnerSink) : Option (List Nat × InnerSink) :=
  match s.queue with
  | [] => none
  | m :: rest =>
    some (serializeFrame m, ⟨rest, s.limit_multiplier, s.total_byte_len - m.byte_len⟩)

/-- The drain loop of `InnerSink::ready`: while
`total_byte_len + len_limit > len_limit * limit_multiplier`, send the head
frame. -/
def readyDrain (lenLimit mult : Nat) (q : List Message) (total : Nat) :
    Option InnerSink :=
  if total + lenLimit > lenLimit * mult then
    match q with
    | [] => none
    | mh :: rest => readyDrain lenLimit mult rest (total - mh.byte_len)
  else
    some ⟨q, mult, total⟩

/-- `InnerSink::ready`: drain until the back-pressure predicate holds. -/
def InnerSink.ready (lenLimit : Nat) (s : InnerSink) : Option InnerSink :=
  readyDrain lenLimit s.limit_multiplier s.queue s.total_byte_len

/-- The drain loop of `InnerSink::flush`: send until the queue is empty. -/
def flushDrain (mult : Nat) : List Message → Nat → InnerSink
  | [], total => ⟨[], mult, total⟩
  | m :: rest, total => flushDrain mult rest (total - m.byte_len)

/-- `InnerSink::flush` (via `Sink::poll_flush`). -/
def InnerSink.flush (s : InnerSink) : InnerSink :=
  flushDrain s.limit_multiplier s.queue s.total_byte_len

/-- `Sink::start_send`: add the frame's byte length to the running total and
push it at the back of the queue. -/
def InnerSink.start_send (s : InnerSink) (m : Message) : InnerSink :=
  ⟨s.queue ++ [m], s.limit_multiplier, s.total_byte_len + m.byte_len⟩

/-- The representation invariant of `InnerSink`: the running total is the sum
of the queued frames' byte lengths. -/
def InnerSink.wf (s : InnerSink) : Prop :=
  s.total_byte_len = (s.queue.map Message.byte_len).sum

/-! ## Client session (src/hermit-lib/src/client/mod.rs,
src/hermit-lib/src/client/len_limit.rs). -/

/-- `HandshakeContext` (client/state.rs): the client nonce and the client's
ephemeral X25519 private key. -/
structure HandshakeContext where
  nonce : List Nat
  private_key : List Nat
deriving DecidableEq, Repr

/-- Modelled from the spec: the `State` enum matched in client/mod.rs is not
among the source files (client/state.rs holds an older typestate encoding).
Spec section 3 gives the tagged variants
`Insecure | Handshaking {context, server signing key} | Secure {secrets}`,
and the source comment in `Client::server_hello` (state set to `Insecure` by
`mem::take`) fixes the `Default` variant to `Insecure`. -/
inductive ClientState where
  | Insecure
  | Handshaking (handshake_context : HandshakeContext) (server_sig_pub_key : List Nat)
  | Secure (secrets : SessionSecrets)
deriving Repr

/-- `LenLimit` (client/len_limit.rs): the acceptable range (inclusive) and
the optional outstanding request. -/
structure LenLimit where
  acceptableLo : Nat
  acceptableHi : Nat
  requested : Option Nat
deriving DecidableEq, Repr

/-- `LenLimit::default()`: the full `[MIN_LEN_LIMIT, MAX_LEN_LIMIT]` range
and no outstanding request. -/
def LenLimit.default : LenLimit := ⟨MIN_LEN_LIMIT, MAX_LEN_LIMIT, none⟩

/-- The client session: its state, its `LenLimit`, and the shared plain
channel's current length limit (the value behind `PlainChannel.len_limit`). -/
structure Client where
  state : ClientState
  len_limit : LenLimit
  channelLenLimit : Nat
deriving Repr

/-- `Client::server_hello` (client/mod.rs lines 93-140): `mem::take` the
state; in `Handshaking`, verify the ServerHello and derive the session
secrets, moving to `Secure` on success and remaining at the taken-out
`Insecure` default on any error; in any other state restore the state and
return `None`. -/
def Client.server_hello (prims : CryptoPrims) (c : Client)
    (msg : ServerHelloMessage) : Option (Except Error Unit) × Client :=
  let state := c.state
  let c := { c with state := .Insecure }
  match state with
  | .Handshaking ctx serverSigPubKey =>
    match verify_server_hello prims msg ctx.nonce serverSigPubKey with
    | .error e => (some (.error (.Crypto e)), c)
    | .ok (serverPublicKey, nonces) =>
      match generate_session_secrets prims ctx.private_key serverPublicKey nonces .Client with
      | .error e => (some (.error (.Crypto e)), c)
      | .ok secrets => (some (.ok ()), { c with state := .Secure secrets })
  | other => (none, { c with state := other })

/-- `Client::request_len_limit` (client/mod.rs): error on an outstanding
request, else validate and send the request and record it as outstanding. -/
def Client.request_len_limit (c : Client) (lenLimit : Nat) :
    Except Error Unit × Client :=
  match c.len_limit.requested with
  | some l => (.error (.LenLimitAdjustment (.OngoingRequest l)), c)
  | none =>
    match AdjustLenLimitRequest.tryFromUsize lenLimit with
    | .error e => (.error (.LenLimitAdjustment e), c)
    | .ok _ =>
      (.ok (), { c with len_limit := { c.len_limit with requested := some lenLimit } })

/-- `Client::respond_len_limit` (client/mod.rs lines 179-205): accept exactly
when no own request is outstanding and the requested value lies in the
acceptable range; send the response, and after an accepting response apply
the new limit to the channel (`set_len_limit` clamps). -/
def Client.respond_len_limit (c : Client) (request : AdjustLenLimitRequest) :
    AdjustLenLimitResponse × Client :=
  let req := request.toUsize
  let hasAccepted :=
    c.len_limit.requested.isNone
      && (decide (c.len_limit.acceptableLo ≤ req) && decide (req ≤ c.len_limit.acceptableHi))
  let c :=
    if hasAccepted then { c with channelLenLimit := set_len_limit req } else c
  (AdjustLenLimitResponse.new hasAccepted, c)

/-- `Client::request_len_limit_responded` (client/mod.rs lines 207-219): with
an outstanding request, clear it and, if the response accepts, apply the
stored requested limit to the channel; without one, error. -/
def Client.request_len_limit_responded (c : Client)
    (response : AdjustLenLimitResponse) : Except Error Unit × Client :=
  match c.len_limit.requested with
  | some lenLimit =>
    let c := { c with len_limit := { c.len_limit with requested := none } }
    if response.has_accepted then
      (.ok (), { c with channelLenLimit := set_len_limit lenLimit })
    else
      (.ok (), c)
  | none => (.error (.LenLimitAdjustment .NoOngoingRequest), c)

/-! ## Shared helper lemmas -/

theorem xor_left_cancel (a x y : Nat) (h : a ^^^ x = a ^^^ y) : x = y := by
  have h2 := congrArg (fun t => a ^^^ t) h
  simpa [← Nat.xor_assoc, Nat.xor_self, Nat.zero_xor] using h2

theorem setSlice2_eq (a b : List Nat) (n m : Nat)
    (ha : a.length = n) (hb : b.length = m) :
    setSlice (setSlice (List.replicate (n + m) 0) 0 a) n b = a ++ b := by
  have s1 : setSlice (List.replicate (n + m) 0) 0 a = a ++ List.replicate m 0 := by
    unfold setSlice
    simp [ha, List.drop_replicate]
  rw [s1]
  have t1 : (a ++ List.replicate m (0 : Nat)).take n = a := List.take_left' ha
  have t2 : (a ++ List.replicate m (0 : Nat)).drop (n + b.length) = [] := by
    rw [hb, ← ha, List.drop_append]
    simp [List.drop_replicate]
  unfold setSlice
  rw [t1, t2, List.append_nil]

theorem setSlice3_eq (a b c : List Nat) (n m k : Nat)
    (ha : a.length = n) (hb : b.length = m) (hc : c.length = k) :
    setSlice (setSlice (setSlice (List.replicate (n + m + k) 0) 0 a) n b) (n + m) c
      = a ++ b ++ c := by
  have s1 : setSlice (List.replicate (n + m + k) 0) 0 a
      = a ++ List.replicate (m + k) 0 := by
    unfold setSlice
    simp [ha, List.drop_replicate]
    omega
  have s2 : setSlice (a ++ List.replicate (m + k) 0) n b
      = (a ++ b) ++ List.replicate k 0 := by
    have t1 : (a ++ List.replicate (m + k) (0 : Nat)).take n = a := List.take_left' ha
    have t2 : (a ++ List.replicate (m + k) (0 : Nat)).drop (n + b.length)
        = List.replicate k 0 := by
      rw [hb, ← ha, List.drop_append]
      rw [List.drop_replicate]
      congr 1
      omega
    unfold setSlice
    rw [t1, t2, List.append_assoc]
  have s3 : setSlice ((a ++ b) ++ List.replicate k 0) (n + m) c = a ++ b ++ c := by
    have hab : (a ++ b).length = n + m := by simp [ha, hb]
    have t1 : ((a ++ b) ++ List.replicate k (0 : Nat)).take (n + m) = a ++ b :=
      List.take_left' hab
    have t2 : ((a ++ b) ++ List.replicate k (0 : Nat)).drop (n + m + c.length) = [] := by
      rw [hc, ← hab, List.drop_append]
      simp [List.drop_replicate]
    unfold setSlice
    rw [t1, t2, List.append_nil]
  rw [s1, s2, s3]

theorem plainMessageType_ofU8_toU8 (t : PlainMessageType) :
    PlainMessageType.ofU8 t.toU8 = .ok t := by
  cases t <;> rfl

theorem protocolVersion_ofU8_toU8 (v : ProtocolVersion) :
    ProtocolVersion.ofU8 v.toU8 = .ok v := by
  cases v
  rfl

/-- Parsing back the bytes written for a frame whose header length field is
consistent and fits in a u16 yields the frame itself. -/
theorem recv_serializeFrame (L : Nat) (m : Message)
    (hlen : m.header.length = m.payload.length)
    (hsmall : m.payload.length < 65536) :
    InnerStream.recv L (serializeFrame m) = .ok (m, []) := by
  obtain ⟨⟨t, v, len⟩, payload⟩ := m
  simp only at hlen hsmall
  subst hlen
  unfold serializeFrame MessageHeader.toBytes InnerStream.recv
  simp only [List.cons_append, List.nil_append]
  unfold MessageHeader.tryFrom4
  rw [plainMessageType_ofU8_toU8, protocolVersion_ofU8_toU8]
  have hlen2 : payload.length % 65536 / 256 * 256 + payload.length % 256
      = payload.length := by omega
  simp [hlen2]

/-- The signed-content buffer is the plain concatenation of the three
inputs when they have their wire lengths. -/
theorem signedContent_concat (cn sn pk : List Nat)
    (hcn : cn.length = NONCE_LEN) (hsn : sn.length = NONCE_LEN)
    (hpk : pk.length = X25519_PUBLIC_KEY_LEN) :
    signedContent cn sn pk = cn ++ sn ++ pk := by
  have h := setSlice3_eq cn sn pk 16 16 32 (by simpa [NONCE_LEN] using hcn)
    (by simpa [NONCE_LEN] using hsn) (by simpa [X25519_PUBLIC_KEY_LEN] using hpk)
  unfold signedContent
  have e1 : SIGNED_CONTENT_LEN = 16 + 16 + 32 := by
    norm_num [SIGNED_CONTENT_LEN, NONCE_LEN, X25519_PUBLIC_KEY_LEN]
  have e2 : NONCE_LEN = 16 := rfl
  rw [e1, e2]
  rw [show (2 * 16 : Nat) = 16 + 16 from rfl]
  exact h

/-! ## Claim theorems -/

/-- Claim C1: for every ServerHello message, the byte string the client
verifies against the server's Ed25519 key is exactly
`client_nonce ++ server_nonce ++ server_public_key` (64 bytes, no
domain-separation prefix), and when Ed25519 verification rejects that
content, `verify_server_hello` returns `BadServerHelloSignature`. -/
theorem C1_verify_server_hello_signed_content (prims : CryptoPrims)
    (msg : ServerHelloMessage) (clientNonce serverSigPubKey : List Nat)
    (hcn : clientNonce.length = NONCE_LEN)
    (hsn : msg.nonce.length = NONCE_LEN)
    (hpk : msg.publicKeyBytes.length = X25519_PUBLIC_KEY_LEN) :
    signedContent clientNonce msg.nonce msg.publicKeyBytes
        = clientNonce ++ msg.nonce ++ msg.publicKeyBytes
      ∧ (signedContent clientNonce msg.nonce msg.publicKeyBytes).length = 64
      ∧ (prims.verify serverSigPubKey
            (clientNonce ++ msg.nonce ++ msg.publicKeyBytes) msg.signature = false →
          verify_server_hello prims msg clientNonce serverSigPubKey
            = .error .BadServerHelloSignature)
      ∧ (prims.verify serverSigPubKey
            (clientNonce ++ msg.nonce ++ msg.publicKeyBytes) msg.signature = true →
          verify_server_hello prims msg clientNonce serverSigPubKey
            = .ok (msg.publicKeyBytes, clientNonce ++ msg.nonce)) := by
  have hc := signedContent_concat clientNonce msg.nonce msg.publicKeyBytes hcn hsn hpk
  refine ⟨hc, ?_, ?_, ?_⟩
  · rw [hc]
    simp [hcn, hsn, hpk, NONCE_LEN, X25519_PUBLIC_KEY_LEN]
  · intro hfalse
    unfold verify_server_hello
    rw [hc]
    simp only [List.append_assoc] at hfalse
    simp [hfalse]
  · intro htrue
    unfold verify_server_hello
    rw [hc]
    have htake : (clientNonce ++ msg.nonce ++ msg.publicKeyBytes).take (2 * NONCE_LEN)
        = clientNonce ++ msg.nonce := by
      have hab : (clientNonce ++ msg.nonce).length = 2 * NONCE_LEN := by
        simp [hcn, hsn]
        omega
      exact List.take_left' hab
    simp only [List.append_assoc] at htrue htake
    simp [htrue, htake]

/-- A `CryptoPrims` instance whose Ed25519 verification rejects everything,
standing in for a signature check that fails. -/
def rejectAllPrims : CryptoPrims :=
  ⟨fun _ _ _ => false, fun _ _ => none, fun _ _ => [], fun _ _ _ => [], fun _ => []⟩

/-- Witness for C1 at a concrete ServerHello and nonce. -/
theorem C1_verify_server_hello_signed_content_witness :
    verify_server_hello rejectAllPrims
        ⟨List.replicate 16 1, List.replicate 32 2, List.replicate 64 3⟩
        (List.replicate 16 0) []
      = .error .BadServerHelloSignature :=
  (C1_verify_server_hello_signed_content rejectAllPrims
      ⟨List.replicate 16 1, List.replicate 32 2, List.replicate 64 3⟩
      (List.replicate 16 0) []
      (by simp [NONCE_LEN]) (by simp [NONCE_LEN])
      (by simp [X25519_PUBLIC_KEY_LEN])).2.2.1 rfl

/-- Claim C2: with matching X25519 key pairs (each side computing the same
shared secret), the client-side and server-side `SessionSecrets` satisfy
client sealing key = server opening key and client opening key = server
sealing key — each side expands the PRK with its own-role info for sealing
and the peer-role info for opening — and both sides derive the same 12-byte
nonce base, the first 12 bytes of SHA-256 of `client_nonce ++ server_nonce`. -/
theorem C2_session_secrets_symmetry (prims : CryptoPrims)
    (clientPrivateKey clientPublicKey serverPrivateKey serverPublicKey : List Nat)
    (clientNonce serverNonce z : List Nat)
    (hca : prims.agree clientPrivateKey serverPublicKey = some z)
    (hsa : prims.agree serverPrivateKey clientPublicKey = some z) :
    ∃ cs ss,
      generate_session_secrets prims clientPrivateKey serverPublicKey
          (clientNonce ++ serverNonce) .Client = .ok cs
      ∧ generate_session_secrets prims serverPrivateKey clientPublicKey
          (clientNonce ++ serverNonce) .Server = .ok ss
      ∧ cs.sealingKey.key = ss.openingKey.key
      ∧ cs.openingKey.key = ss.sealingKey.key
      ∧ cs.sealingKey.key
          = prims.hkdfExpand (prims.hkdfExtract (clientNonce ++ serverNonce) z)
              [clientInfoBytes, masterKeyInfoBytes] AEAD_KEY_LEN
      ∧ cs.openingKey.key
          = prims.hkdfExpand (prims.hkdfExtract (clientNonce ++ serverNonce) z)
              [serverInfoBytes, masterKeyInfoBytes] AEAD_KEY_LEN
      ∧ cs.sealingKey.nonceSeq.base
          = (prims.sha256 (clientNonce ++ serverNonce)).take 12
      ∧ cs.openingKey.nonceSeq.base
          = (prims.sha256 (clientNonce ++ serverNonce)).take 12
      ∧ ss.sealingKey.nonceSeq.base
          = (prims.sha256 (clientNonce ++ serverNonce)).take 12
      ∧ ss.openingKey.nonceSeq.base
          = (prims.sha256 (clientNonce ++ serverNonce)).take 12 := by
  have hprkC : generate_pseudorandom_key prims clientPrivateKey serverPublicKey
      (clientNonce ++ serverNonce)
      = .ok (prims.hkdfExtract (clientNonce ++ serverNonce) z) := by
    unfold generate_pseudorandom_key
    rw [hca]
  have hprkS : generate_pseudorandom_key prims serverPrivateKey clientPublicKey
      (clientNonce ++ serverNonce)
      = .ok (prims.hkdfExtract (clientNonce ++ serverNonce) z) := by
    unfold generate_pseudorandom_key
    rw [hsa]
  have hc : generate_session_secrets prims clientPrivateKey serverPublicKey
      (clientNonce ++ serverNonce) .Client
      = .ok (SessionSecrets.new (prims.hkdfExtract (clientNonce ++ serverNonce) z)
          (generate_master_key prims (prims.hkdfExtract (clientNonce ++ serverNonce) z)
            clientInfoBytes)
          (generate_master_key prims (prims.hkdfExtract (clientNonce ++ serverNonce) z)
            serverInfoBytes)
          (generate_nonce_base prims (clientNonce ++ serverNonce))) := by
    unfold generate_session_secrets
    rw [hprkC]
  have hs : generate_session_secrets prims serverPrivateKey clientPublicKey
      (clientNonce ++ serverNonce) .Server
      = .ok (SessionSecrets.new (prims.hkdfExtract (clientNonce ++ serverNonce) z)
          (generate_master_key prims (prims.hkdfExtract (clientNonce ++ serverNonce) z)
            serverInfoBytes)
          (generate_master_key prims (prims.hkdfExtract (clientNonce ++ serverNonce) z)
            clientInfoBytes)
          (generate_nonce_base prims (clientNonce ++ serverNonce))) := by
    unfold generate_session_secrets
    rw [hprkS]
  exact ⟨_, _, hc, hs, rfl, rfl, rfl, rfl, rfl, rfl, rfl, rfl⟩

/-- A `CryptoPrims` instance with simple concrete primitives for witnesses:
agreement always yields the 32-byte 0xAA secret. -/
def sharedSecretPrims : CryptoPrims :=
  ⟨fun _ _ _ => true, fun _ _ => some (List.replicate 32 170),
   fun salt ikm => salt ++ ikm, fun prk info _ => prk ++ info.flatten,
   fun l => l ++ l⟩

/-- Witness for C2 at concrete nonces and key pairs. -/
theorem C2_session_secrets_symmetry_witness :
    ∃ cs ss,
      generate_session_secrets sharedSecretPrims (List.replicate 32 1)
          (List.replicate 32 4) (List.replicate 16 0 ++ List.replicate 16 1) .Client = .ok cs
      ∧ generate_session_secrets sharedSecretPrims (List.replicate 32 3)
          (List.replicate 32 2) (List.replicate 16 0 ++ List.replicate 16 1) .Server = .ok ss
      ∧ cs.sealingKey.key = ss.openingKey.key
      ∧ cs.openingKey.key = ss.sealingKey.key
      ∧ cs.sealingKey.key
          = sharedSecretPrims.hkdfExpand
              (sharedSecretPrims.hkdfExtract (List.replicate 16 0 ++ List.replicate 16 1)
                (List.replicate 32 170))
              [clientInfoBytes, masterKeyInfoBytes] AEAD_KEY_LEN
      ∧ cs.openingKey.key
          = sharedSecretPrims.hkdfExpand
              (sharedSecretPrims.hkdfExtract (List.replicate 16 0 ++ List.replicate 16 1)
                (List.replicate 32 170))
              [serverInfoBytes, masterKeyInfoBytes] AEAD_KEY_LEN
      ∧ cs.sealingKey.nonceSeq.base
          = (sharedSecretPrims.sha256 (List.replicate 16 0 ++ List.replicate 16 1)).take 12
      ∧ cs.openingKey.nonceSeq.base
          = (sharedSecretPrims.sha256 (List.replicate 16 0 ++ List.replicate 16 1)).take 12
      ∧ ss.sealingKey.nonceSeq.base
          = (sharedSecretPrims.sha256 (List.replicate 16 0 ++ List.replicate 16 1)).take 12
      ∧ ss.openingKey.nonceSeq.base
          = (sharedSecretPrims.sha256 (List.replicate 16 0 ++ List.replicate 16 1)).take 12 :=
  C2_session_secrets_symmetry sharedSecretPrims (List.replicate 32 1)
    (List.replicate 32 2) (List.replicate 32 3) (List.replicate 32 4)
    (List.replicate 16 0) (List.replicate 16 1) (List.replicate 32 170) rfl rfl

theorem list_length_twelve (l : List Nat) (h : l.length = 12) :
    ∃ b0 b1 b2 b3 b4 b5 b6 b7 b8 b9 b10 b11,
      l = [b0, b1, b2, b3, b4, b5, b6, b7, b8, b9, b10, b11] := by
  rcases l with _ | ⟨b0, l⟩
  · simp at h
  rcases l with _ | ⟨b1, l⟩
  · simp at h
  rcases l with _ | ⟨b2, l⟩
  · simp at h
  rcases l with _ | ⟨b3, l⟩
  · simp at h
  rcases l with _ | ⟨b4, l⟩
  · simp at h
  rcases l with _ | ⟨b5, l⟩
  · simp at h
  rcases l with _ | ⟨b6, l⟩
  · simp at h
  rcases l with _ | ⟨b7, l⟩
  · simp at h
  rcases l with _ | ⟨b8, l⟩
  · simp at h
  rcases l with _ | ⟨b9, l⟩
  · simp at h
  rcases l with _ | ⟨b10, l⟩
  · simp at h
  rcases l with _ | ⟨b11, l⟩
  · simp at h
  rcases l with _ | ⟨b12, l⟩
  · exact ⟨b0, b1, b2, b3, b4, b5, b6, b7, b8, b9, b10, b11, rfl⟩
  · simp at h

theorem xor_twelve (b0 b1 b2 b3 b4 b5 b6 b7 b8 b9 b10 b11 c : Nat) :
    NonceSequence.xor [b0, b1, b2, b3, b4, b5, b6, b7, b8, b9, b10, b11] c
      = [b0, b1, b2, b3,
         b4 ^^^ c / 2 ^ 56 % 256, b5 ^^^ c / 2 ^ 48 % 256, b6 ^^^ c / 2 ^ 40 % 256,
         b7 ^^^ c / 2 ^ 32 % 256, b8 ^^^ c / 2 ^ 24 % 256, b9 ^^^ c / 2 ^ 16 % 256,
         b10 ^^^ c / 2 ^ 8 % 256, b11 ^^^ c % 256] := by
  rfl

theorem xor_shape (base : List Nat) (hb : base.length = 12) (c : Nat) :
    NonceSequence.xor base c
      = base.take 4 ++ List.zipWith (fun a b => a ^^^ b) (base.drop 4) (beBytes8 c) := by
  obtain ⟨b0, b1, b2, b3, b4, b5, b6, b7, b8, b9, b10, b11, rfl⟩ :=
    list_length_twelve base hb
  rw [xor_twelve]
  rfl

theorem advanceN_eq (s : NonceSequence) (n : Nat) :
    s.advanceN n = ⟨s.base, s.counter + n⟩ := by
  induction n with
  | zero => simp [NonceSequence.advanceN]
  | succ n ih =>
    simp only [NonceSequence.advanceN, ih, NonceSequence.advance]
    rw [Nat.add_assoc]

theorem emitted_eq_xor (base : List Nat) (i : Nat) :
    NonceSequence.emitted base i = NonceSequence.xor base i := by
  unfold NonceSequence.emitted
  rw [advanceN_eq]
  simp [NonceSequence.advance, NonceSequence.new]

/-- Claim C4: on a 12-byte base the first `2^64` nonces produced by
`NonceSequence::advance` are pairwise distinct; the i-th nonce (counting
from counter 0) is the base with the big-endian encoding of the counter
XORed into its last 8 bytes; and each `advance` increments the counter
exactly once. -/
theorem C4_nonce_sequence (base : List Nat) (hb : base.length = 12)
    (i j : Nat) (hi : i < 2 ^ 64) (hj : j < 2 ^ 64) (hij : i ≠ j)
    (s : NonceSequence) :
    NonceSequence.emitted base i
        = base.take 4 ++ List.zipWith (fun a b => a ^^^ b) (base.drop 4) (beBytes8 i)
      ∧ NonceSequence.emitted base i = NonceSequence.xor base i
      ∧ NonceSequence.emitted base i ≠ NonceSequence.emitted base j
      ∧ s.advance.2.counter = s.counter + 1 := by
  refine ⟨?_, emitted_eq_xor base i, ?_, rfl⟩
  · rw [emitted_eq_xor, xor_shape base hb]
  · rw [emitted_eq_xor, emitted_eq_xor]
    obtain ⟨b0, b1, b2, b3, b4, b5, b6, b7, b8, b9, b10, b11, rfl⟩ :=
      list_length_twelve base hb
    intro heq
    rw [xor_twelve, xor_twelve] at heq
    simp only [List.cons.injEq, and_true, eq_self_iff_true, true_and] at heq
    obtain ⟨h1, h2, h3, h4, h5, h6, h7, h8⟩ := heq
    refine hij (beBytes8_injOn hi hj ?_)
    simp only [beBytes8, List.cons.injEq, and_true]
    exact ⟨xor_left_cancel _ _ _ h1, xor_left_cancel _ _ _ h2,
      xor_left_cancel _ _ _ h3, xor_left_cancel _ _ _ h4,
      xor_left_cancel _ _ _ h5, xor_left_cancel _ _ _ h6,
      xor_left_cancel _ _ _ h7, xor_left_cancel _ _ _ h8⟩

/-- Witness for C4 at the all-zero base and counters 0 and 1. -/
theorem C4_nonce_sequence_witness :
    NonceSequence.emitted (List.replicate 12 0) 0
        = (List.replicate 12 0).take 4
          ++ List.zipWith (fun a b => a ^^^ b) ((List.replicate 12 0).drop 4) (beBytes8 0)
      ∧ NonceSequence.emitted (List.replicate 12 0) 0
          = NonceSequence.xor (List.replicate 12 0) 0
      ∧ NonceSequence.emitted (List.replicate 12 0) 0
          ≠ NonceSequence.emitted (List.replicate 12 0) 1
      ∧ (NonceSequence.mk [] 5).advance.2.counter = (NonceSequence.mk [] 5).counter + 1 :=
  C4_nonce_sequence (List.replicate 12 0) (by simp) 0 1 (by decide) (by decide)
    (by decide) (NonceSequence.mk [] 5)

/-- Characterization of `SessionSecrets::seal` when the AEAD returns a
ciphertext of the plaintext's length and a 16-byte tag: the frame payload is
`ciphertext ++ tag` and the sealing nonce sequence advances once. -/
theorem seal_eq (A : Aead) (s : SessionSecrets) (payload c tag : List Nat)
    (hct : A.sealFn s.sealingKey.key s.sealingKey.nonceSeq.advance.1
        (payload.take (payload.length - TAG_LEN)) = (c, tag))
    (hclen : c.length = payload.length - TAG_LEN)
    (htlen : tag.length = TAG_LEN)
    (hbig : TAG_LEN ≤ payload.length) :
    s.seal A payload
      = (Message.new .Secure (c ++ tag),
         { s with sealingKey :=
            { s.sealingKey with nonceSeq := s.sealingKey.nonceSeq.advance.2 } }) := by
  have hdlen : (payload.drop (payload.length - TAG_LEN)).length = TAG_LEN := by
    simp
    omega
  have hbuf : (c ++ payload.drop (payload.length - TAG_LEN)).length - TAG_LEN
      = c.length := by
    simp [hdlen]
  unfold SessionSecrets.seal
  dsimp only [NonceSequence.advance]
  have hct2 := hct
  dsimp only [NonceSequence.advance] at hct2
  simp only [hct2]
  rw [hbuf, List.take_left]

/-- Claim C3: with the matching directional key at the same nonce-sequence
position, `open` after `seal` returns the plaintext `P` (the buffer's
plaintext region, ahead of the spent tag region) for every `P` of length at
most `current_limit - TAG_LEN`, while any single-bit corruption of the
sealed payload (ciphertext or tag) makes `open` return an error.  The
AES-128-GCM contract of `ring` — ciphertext length, tag length, round-trip,
and rejection of the bit-flipped buffer — enters as hypotheses on the
abstract AEAD. -/
theorem C3_record_roundtrip_and_tamper (A : Aead) (sender receiver : SessionSecrets)
    (P pad c tag : List Nat) (L : Nat)
    (hkey : receiver.openingKey.key = sender.sealingKey.key)
    (hseq : receiver.openingKey.nonceSeq = sender.sealingKey.nonceSeq)
    (hpad : pad.length = TAG_LEN)
    (hlimit : P.length ≤ L - TAG_LEN)
    (hct : A.sealFn sender.sealingKey.key sender.sealingKey.nonceSeq.advance.1 P
        = (c, tag))
    (hclen : c.length = P.length) (htlen : tag.length = TAG_LEN)
    (hround : A.openFn sender.sealingKey.key sender.sealingKey.nonceSeq.advance.1
        (c ++ tag) = some P)
    (htamper : ∀ i k, i < (c ++ tag).length → k < 8 →
        A.openFn sender.sealingKey.key sender.sealingKey.nonceSeq.advance.1
          (flipBit (c ++ tag) i k) = none) :
    (sender.seal A (P ++ pad)).1.payload = c ++ tag
      ∧ (∃ out s2, receiver.open A (sender.seal A (P ++ pad)).1 = .ok (out, s2)
          ∧ out.take P.length = P ∧ out = P ++ tag)
      ∧ (∀ i k, i < (sender.seal A (P ++ pad)).1.payload.length → k < 8 →
          receiver.open A
              ⟨(sender.seal A (P ++ pad)).1.header,
               flipBit (sender.seal A (P ++ pad)).1.payload i k⟩
            = .error .Unspecified)
      ∧ (sender.seal A (P ++ pad)).2.sealingKey.nonceSeq.counter
          = sender.sealingKey.nonceSeq.counter + 1 := by
  have e1 : (P ++ pad).length - TAG_LEN = P.length := by simp [hpad]
  have e2 : (P ++ pad).take ((P ++ pad).length - TAG_LEN) = P := by
    rw [e1]
    exact List.take_left P pad
  have hseal := seal_eq A sender (P ++ pad) c tag (by rw [e2]; exact hct)
    (by rw [e1]; exact hclen) htlen (by simp [hpad])
  have hpayload : (sender.seal A (P ++ pad)).1.payload = c ++ tag := by
    rw [hseal]
    rfl
  have hctlen : (c ++ tag).length - TAG_LEN = c.length := by simp [htlen]
  have hopen_nonce : receiver.openingKey.nonceSeq.advance.1
      = sender.sealingKey.nonceSeq.advance.1 := by rw [hseq]
  have hround2 := hround
  dsimp only [NonceSequence.advance] at hround2
  refine ⟨hpayload, ?_, ?_, ?_⟩
  · refine ⟨P ++ tag,
      { receiver with openingKey :=
          { receiver.openingKey with
              nonceSeq := receiver.openingKey.nonceSeq.advance.2 } },
      ?_, List.take_left P tag, rfl⟩
    unfold SessionSecrets.open
    rw [hseq, hkey]
    dsimp only [NonceSequence.advance]
    simp only [hpayload, hround2]
    rw [hctlen, List.drop_left]
  · intro i k hik hk
    have ht := htamper i k (by simpa [hpayload] using hik) hk
    dsimp only [NonceSequence.advance] at ht
    unfold SessionSecrets.open
    rw [hseq, hkey]
    dsimp only [NonceSequence.advance]
    simp only [hpayload, ht]
  · rw [hseal]
    rfl

/-- A concrete AEAD for witnesses: the ciphertext is the plaintext and the
16-byte tag repeats the byte sum mod 256, so every single-bit flip of the
data is detected. -/
def checksumAead : Aead :=
  ⟨fun _ _ p => (p, List.replicate TAG_LEN (p.sum % 256)),
   fun _ _ d =>
     if TAG_LEN ≤ d.length ∧ d.drop (d.length - TAG_LEN)
         = List.replicate TAG_LEN ((d.take (d.length - TAG_LEN)).sum % 256)
     then some (d.take (d.length - TAG_LEN))
     else none⟩

/-- Concrete session secrets for the C3 witness: both directions bound to the
same key and the same fresh nonce sequence. -/
def c3Secrets : SessionSecrets :=
  SessionSecrets.new [1] [7] [7] (List.replicate 12 0)

/-- The C3 witness plaintext (the ASCII bytes of HELLO). -/
def c3Plain : List Nat := [72, 69, 76, 76, 79]

/-- The C3 witness tag bytes. -/
def c3Tag : List Nat := List.replicate 16 116

/-- Witness for C3 at the checksum AEAD, a 5-byte plaintext and limit 1023. -/
theorem C3_record_roundtrip_and_tamper_witness :
    (c3Secrets.seal checksumAead (c3Plain ++ List.replicate 16 0)).1.payload
        = c3Plain ++ c3Tag
      ∧ (∃ out s2,
          c3Secrets.open checksumAead
              (c3Secrets.seal checksumAead (c3Plain ++ List.replicate 16 0)).1
            = .ok (out, s2)
          ∧ out.take c3Plain.length = c3Plain ∧ out = c3Plain ++ c3Tag)
      ∧ (∀ i k,
          i < (c3Secrets.seal checksumAead (c3Plain ++ List.replicate 16 0)).1.payload.length →
          k < 8 →
          c3Secrets.open checksumAead
              ⟨(c3Secrets.seal checksumAead (c3Plain ++ List.replicate 16 0)).1.header,
               flipBit
                 (c3Secrets.seal checksumAead (c3Plain ++ List.replicate 16 0)).1.payload
                 i k⟩
            = .error .Unspecified)
      ∧ (c3Secrets.seal checksumAead (c3Plain ++ List.replicate 16 0)).2.sealingKey.nonceSeq.counter
          = c3Secrets.sealingKey.nonceSeq.counter + 1 :=
  by
  refine C3_record_roundtrip_and_tamper checksumAead c3Secrets c3Secrets
    c3Plain (List.replicate 16 0) c3Plain c3Tag 1023
    rfl rfl (by decide) (by decide) (by decide) (by decide) (by decide)
    (by decide) ?_
  have h : ∀ i, i < (c3Plain ++ c3Tag).length → ∀ k, k < 8 →
      checksumAead.openFn c3Secrets.sealingKey.key
        c3Secrets.sealingKey.nonceSeq.advance.1
        (flipBit (c3Plain ++ c3Tag) i k) = none := by decide
  exact fun i k hik hk => h i hik k hk

set_option maxRecDepth 10000 in
/-- Counterexample to claim C5: the receive path yields frames whose declared
length violates the claimed checks.  A frame declaring length 5 (outside
`[MIN_LEN_LIMIT, MAX_LEN_LIMIT]`) and a frame declaring length 1100 (above
the default current limit `MIN_LEN_LIMIT = 1023`) are both parsed and
yielded as `.ok`, not rejected. -/
theorem C5_counterexample :
    InnerStream.recv MIN_LEN_LIMIT ([3, 1, 0, 5] ++ List.replicate 5 0)
        = .ok (⟨⟨.Disconnect, .V0_1, 5⟩, List.replicate 5 0⟩, [])
      ∧ 5 < MIN_LEN_LIMIT
      ∧ InnerStream.recv MIN_LEN_LIMIT ([3, 1, 4, 76] ++ List.replicate 1100 0)
        = .ok (⟨⟨.Disconnect, .V0_1, 1100⟩, List.replicate 1100 0⟩, [])
      ∧ MIN_LEN_LIMIT < 1100 ∧ 1100 ≤ MAX_LEN_LIMIT := by
  refine ⟨by decide, by decide, ?_, by decide, by decide⟩
  rfl

/-- Claim C5 (amended): after `set_len_limit L`, the outbound `send_check`
rejects frames with payload length above `L` (and out-of-range lengths with
`PayloadLengthOutOfRange`), but the receive path validates only the type and
version bytes of the header: any frame whose type and version parse is read
in full and yielded, with no check of its declared length against `L` or
`[MIN_LEN_LIMIT, MAX_LEN_LIMIT]`. -/
theorem C5_send_check_only_outbound (L : Nat) (msg bigMsg : Message)
    (t v l1 l2 : Nat) (h : MessageHeader) (payload extra : List Nat)
    (hrange : MIN_LEN_LIMIT ≤ msg.payload.length ∧ msg.payload.length ≤ MAX_LEN_LIMIT)
    (hover : msg.payload.length > L)
    (hbig : bigMsg.payload.length > MAX_LEN_LIMIT)
    (hhdr : MessageHeader.tryFrom4 t v l1 l2 = .ok h)
    (hplen : payload.length = h.length) :
    send_check L msg = .error (.PayloadLengthAboveLimit msg.payload.length L)
      ∧ send_check L bigMsg = .error (.PayloadLengthOutOfRange bigMsg.payload.length)
      ∧ InnerStream.recv L (t :: v :: l1 :: l2 :: (payload ++ extra))
          = .ok (⟨h, payload⟩, extra) := by
  refine ⟨?_, ?_, ?_⟩
  · unfold send_check
    rw [if_neg (by push_neg; exact hrange), if_pos hover]
  · unfold send_check
    rw [if_pos (by push_neg; intro _; omega)]
  · unfold InnerStream.recv
    dsimp only
    rw [hhdr]
    dsimp only
    rw [if_neg (by simp [hplen])]
    rw [List.take_left' hplen, List.drop_left' hplen]

/-- Witness for the amended C5 at concrete frames. -/
theorem C5_send_check_only_outbound_witness :
    send_check 1023 (Message.new .Secure (List.replicate 2000 0))
        = .error (.PayloadLengthAboveLimit 2000 1023)
      ∧ send_check 1023 (Message.new .Secure (List.replicate 40000 0))
          = .error (.PayloadLengthOutOfRange 40000)
      ∧ InnerStream.recv 1023
            (0 :: 1 :: 0 :: 48 :: (List.replicate 48 7 ++ [9]))
          = .ok (⟨⟨.Secure, .V0_1, 48⟩, List.replicate 48 7⟩, [9]) := by
  have e1 : (Message.new PlainMessageType.Secure (List.replicate 2000 0)).payload.length
      = 2000 := by
    rw [show (Message.new PlainMessageType.Secure (List.replicate 2000 0)).payload
        = List.replicate 2000 0 from rfl, List.length_replicate]
  have e2 : (Message.new PlainMessageType.Secure (List.replicate 40000 0)).payload.length
      = 40000 := by
    rw [show (Message.new PlainMessageType.Secure (List.replicate 40000 0)).payload
        = List.replicate 40000 0 from rfl, List.length_replicate]
  have h := C5_send_check_only_outbound 1023
    (Message.new .Secure (List.replicate 2000 0))
    (Message.new .Secure (List.replicate 40000 0))
    0 1 0 48 ⟨.Secure, .V0_1, 48⟩ (List.replicate 48 7) [9]
    (by rw [e1]; decide) (by rw [e1]; decide) (by rw [e2]; decide)
    (by decide) (by simp)
  rw [e1, e2] at h
  exact h

theorem readyDrain_spec (L N : Nat) (hN : 1 ≤ N) :
    ∀ q total, total = (q.map Message.byte_len).sum →
      ∃ s2, readyDrain L N q total = some s2
        ∧ s2.total_byte_len + L ≤ L * N
        ∧ s2.wf ∧ s2.limit_multiplier = N
        ∧ ∃ k, s2.queue = q.drop k := by
  intro q
  induction q with
  | nil =>
    intro total htot
    simp only [List.map_nil, List.sum_nil] at htot
    subst htot
    have hle : 0 + L ≤ L * N := by
      have := Nat.mul_le_mul_left L hN
      simpa using this
    refine ⟨⟨[], N, 0⟩, ?_, hle, by simp [InnerSink.wf], rfl, 0, rfl⟩
    rw [readyDrain.eq_def]
    rw [if_neg (by omega)]
  | cons m2 rest ih =>
    intro total htot
    simp only [List.map_cons, List.sum_cons] at htot
    by_cases hc : total + L > L * N
    · have hrec := ih (total - m2.byte_len) (by omega)
      obtain ⟨s2, hs2, hle, hwf2, hm2, k, hk⟩ := hrec
      refine ⟨s2, ?_, hle, hwf2, hm2, k + 1, by simpa using hk⟩
      rw [readyDrain.eq_def, if_pos hc]
      exact hs2
    · refine ⟨⟨m2 :: rest, N, total⟩, ?_, by dsimp only; omega, htot, rfl, 0, rfl⟩
      rw [readyDrain.eq_def, if_neg hc]

theorem flushDrain_spec (N : Nat) :
    ∀ q total, total = (q.map Message.byte_len).sum →
      flushDrain N q total = ⟨[], N, 0⟩ := by
  intro q
  induction q with
  | nil =>
    intro total htot
    simp only [List.map_nil, List.sum_nil] at htot
    subst htot
    rfl
  | cons m2 rest ih =>
    intro total htot
    simp only [List.map_cons, List.sum_cons] at htot
    rw [flushDrain]
    exact ih (total - m2.byte_len) (by omega)

/-- Claim C6: the sink accepts a new frame exactly when
`total_byte_len + current_limit ≤ limit_multiplier * current_limit`; when the
predicate fails, `poll_ready` writes frames from the head of the queue
(each write decreasing `total_byte_len` by that frame's byte length) until
it holds; `flush` writes until the queue is empty; and the invariant
`total_byte_len ≤ limit_multiplier * current_limit` holds after every
completed sink operation for a fixed current limit. -/
theorem C6_sink_backpressure (L : Nat) (s : InnerSink) (m : Message)
    (hN : 1 ≤ s.limit_multiplier) (hwf : s.wf) (hm : m.byte_len ≤ L) :
    (s.total_byte_len + L ≤ L * s.limit_multiplier → s.ready L = some s)
      ∧ (s.ready L = some s → s.total_byte_len + L ≤ L * s.limit_multiplier)
      ∧ (∀ m2 rest, s.queue = m2 :: rest →
          s.total_byte_len + L > L * s.limit_multiplier →
          s.ready L
            = readyDrain L s.limit_multiplier rest (s.total_byte_len - m2.byte_len))
      ∧ (∃ s2, s.ready L = some s2
          ∧ s2.total_byte_len + L ≤ L * s.limit_multiplier
          ∧ s2.wf ∧ ∃ k, s2.queue = s.queue.drop k)
      ∧ ((s.flush).queue = [] ∧ (s.flush).total_byte_len = 0)
      ∧ (s.total_byte_len + L ≤ L * s.limit_multiplier →
          (s.start_send m).total_byte_len ≤ L * s.limit_multiplier)
      ∧ (s.start_send m).wf := by
  obtain ⟨q, N, total⟩ := s
  simp only [InnerSink.wf] at hwf
  dsimp only at hN hm ⊢
  refine ⟨?_, ?_, ?_, ?_, ?_, ?_, ?_⟩
  · intro hle
    unfold InnerSink.ready
    dsimp only
    rw [readyDrain.eq_def, if_neg (by omega)]
  · intro hready
    by_contra hgt
    push_neg at hgt
    unfold InnerSink.ready at hready
    dsimp only at hready
    rw [readyDrain.eq_def, if_pos (by omega)] at hready
    cases q with
    | nil =>
      simp only [List.map_nil, List.sum_nil] at hwf
      subst hwf
      have := Nat.mul_le_mul_left L hN
      omega
    | cons m2 rest =>
      simp only [List.map_cons, List.sum_cons] at hwf
      dsimp only at hready
      obtain ⟨s2, hs2, _, _, _, k, hk⟩ :=
        readyDrain_spec L N hN rest (total - m2.byte_len) (by omega)
      rw [hs2] at hready
      have hqueue : s2.queue = m2 :: rest := by
        have := congrArg InnerSink.queue (Option.some.inj hready)
        simpa using this
      rw [hk] at hqueue
      have hlen := congrArg List.length hqueue
      simp only [List.length_drop, List.length_cons] at hlen
      omega
  · intro m2 rest hq hgt
    subst hq
    unfold InnerSink.ready
    rw [readyDrain, if_pos hgt]
  · obtain ⟨s2, hs2, hle, hwf2, _, k, hk⟩ := readyDrain_spec L N hN q total hwf
    exact ⟨s2, hs2, hle, hwf2, k, hk⟩
  · unfold InnerSink.flush
    rw [flushDrain_spec N q total hwf]
    exact ⟨rfl, rfl⟩
  · intro hle
    unfold InnerSink.start_send
    simp only
    omega
  · unfold InnerSink.wf InnerSink.start_send
    simp [hwf]

/-- Witness for C6 at a concrete sink state, limit 1023, multiplier 2 and a
100-byte frame. -/
theorem C6_sink_backpressure_witness :
    ((InnerSink.mk [Message.new .Disconnect []] 2 0).total_byte_len + 1023
          ≤ 1023 * (InnerSink.mk [Message.new .Disconnect []] 2 0).limit_multiplier →
        (InnerSink.mk [Message.new .Disconnect []] 2 0).ready 1023
          = some (InnerSink.mk [Message.new .Disconnect []] 2 0))
      ∧ ((InnerSink.mk [Message.new .Disconnect []] 2 0).ready 1023
            = some (InnerSink.mk [Message.new .Disconnect []] 2 0) →
          (InnerSink.mk [Message.new .Disconnect []] 2 0).total_byte_len + 1023
            ≤ 1023 * (InnerSink.mk [Message.new .Disconnect []] 2 0).limit_multiplier)
      ∧ (∀ m2 rest, (InnerSink.mk [Message.new .Disconnect []] 2 0).queue = m2 :: rest →
          (InnerSink.mk [Message.new .Disconnect []] 2 0).total_byte_len + 1023
            > 1023 * (InnerSink.mk [Message.new .Disconnect []] 2 0).limit_multiplier →
          (InnerSink.mk [Message.new .Disconnect []] 2 0).ready 1023
            = readyDrain 1023 (InnerSink.mk [Message.new .Disconnect []] 2 0).limit_multiplier
                rest ((InnerSink.mk [Message.new .Disconnect []] 2 0).total_byte_len - m2.byte_len))
      ∧ (∃ s2, (InnerSink.mk [Message.new .Disconnect []] 2 0).ready 1023 = some s2
          ∧ s2.total_byte_len + 1023
              ≤ 1023 * (InnerSink.mk [Message.new .Disconnect []] 2 0).limit_multiplier
          ∧ s2.wf ∧ ∃ k, s2.queue = (InnerSink.mk [Message.new .Disconnect []] 2 0).queue.drop k)
      ∧ (((InnerSink.mk [Message.new .Disconnect []] 2 0).flush).queue = []
          ∧ ((InnerSink.mk [Message.new .Disconnect []] 2 0).flush).total_byte_len = 0)
      ∧ ((InnerSink.mk [Message.new .Disconnect []] 2 0).total_byte_len + 1023
            ≤ 1023 * (InnerSink.mk [Message.new .Disconnect []] 2 0).limit_multiplier →
          ((InnerSink.mk [Message.new .Disconnect []] 2 0).start_send
              (Message.new .Secure (List.replicate 100 0))).total_byte_len
            ≤ 1023 * (InnerSink.mk [Message.new .Disconnect []] 2 0).limit_multiplier)
      ∧ ((InnerSink.mk [Message.new .Disconnect []] 2 0).start_send
          (Message.new .Secure (List.replicate 100 0))).wf :=
  C6_sink_backpressure 1023 (InnerSink.mk [Message.new .Disconnect []] 2 0)
    (Message.new .Secure (List.replicate 100 0))
    (by decide) rfl (by decide)

theorem AdjustLenLimitResponse.has_accepted_new (b : Bool) :
    (AdjustLenLimitResponse.new b).has_accepted = b := by
  cases b <;> rfl

/-- Claim C7: the responder accepts exactly when it has no outstanding
request of its own and the requested limit lies in its acceptable range; on
acceptance it adopts the new limit immediately after sending the response;
the requester adopts its stored requested value upon an accepting response;
on a rejecting response neither side's current limit changes (and the
requester's outstanding request is cleared either way). -/
theorem C7_len_limit_negotiation (c d : Client) (request : AdjustLenLimitRequest)
    (v : Nat)
    (hrange : MIN_LEN_LIMIT ≤ c.len_limit.acceptableLo
      ∧ c.len_limit.acceptableHi ≤ MAX_LEN_LIMIT)
    (hreq : d.len_limit.requested = some v)
    (hv : MIN_LEN_LIMIT ≤ v ∧ v ≤ MAX_LEN_LIMIT) :
    ((c.respond_len_limit request).1.has_accepted
        = (c.len_limit.requested.isNone
            && (decide (c.len_limit.acceptableLo ≤ request.toUsize)
                && decide (request.toUsize ≤ c.len_limit.acceptableHi))))
      ∧ ((c.respond_len_limit request).1.has_accepted = true →
          (c.respond_len_limit request).2.channelLenLimit = request.toUsize)
      ∧ ((c.respond_len_limit request).1.has_accepted = false →
          (c.respond_len_limit request).2 = c)
      ∧ ((d.request_len_limit_responded (AdjustLenLimitResponse.new true)).2.channelLenLimit
          = v)
      ∧ ((d.request_len_limit_responded (AdjustLenLimitResponse.new false)).2.channelLenLimit
          = d.channelLenLimit)
      ∧ ((d.request_len_limit_responded
            (AdjustLenLimitResponse.new true)).2.len_limit.requested = none)
      ∧ ((d.request_len_limit_responded
            (AdjustLenLimitResponse.new false)).2.len_limit.requested = none) := by
  have hb : (c.respond_len_limit request).1.has_accepted
      = (c.len_limit.requested.isNone
          && (decide (c.len_limit.acceptableLo ≤ request.toUsize)
              && decide (request.toUsize ≤ c.len_limit.acceptableHi))) :=
    AdjustLenLimitResponse.has_accepted_new _
  refine ⟨hb, ?_, ?_, ?_, ?_, ?_, ?_⟩
  · intro hacc
    rw [hb] at hacc
    simp only [Bool.and_eq_true, Option.isNone_iff_eq_none, decide_eq_true_eq] at hacc
    unfold Client.respond_len_limit
    dsimp only
    rw [if_pos (by
      simp only [Bool.and_eq_true, Option.isNone_iff_eq_none, decide_eq_true_eq]
      exact hacc)]
    dsimp only
    unfold set_len_limit
    obtain ⟨_, h1, h2⟩ := hacc
    obtain ⟨hr1, hr2⟩ := hrange
    omega
  · intro hacc
    rw [hb] at hacc
    unfold Client.respond_len_limit
    dsimp only
    rw [if_neg (by rw [hacc]; exact Bool.false_ne_true)]
  · unfold Client.request_len_limit_responded
    rw [hreq]
    rw [AdjustLenLimitResponse.has_accepted_new]
    dsimp only
    rw [if_pos rfl]
    unfold set_len_limit
    dsimp only
    omega
  · unfold Client.request_len_limit_responded
    rw [hreq]
    rw [AdjustLenLimitResponse.has_accepted_new]
    dsimp only
    rw [if_neg Bool.false_ne_true]
  · unfold Client.request_len_limit_responded
    rw [hreq]
    rw [AdjustLenLimitResponse.has_accepted_new]
    dsimp only
    rw [if_pos rfl]
  · unfold Client.request_len_limit_responded
    rw [hreq]
    rw [AdjustLenLimitResponse.has_accepted_new]
    dsimp only
    rw [if_neg Bool.false_ne_true]

/-- Witness for C7 at two concrete clients, an in-range request value 4096
and an outstanding request of 2048. -/
theorem C7_len_limit_negotiation_witness :
    (((Client.mk .Insecure LenLimit.default 1023).respond_len_limit
            ⟨[16, 0]⟩).1.has_accepted
        = ((Client.mk .Insecure LenLimit.default 1023).len_limit.requested.isNone
            && (decide ((Client.mk .Insecure LenLimit.default 1023).len_limit.acceptableLo
                  ≤ AdjustLenLimitRequest.toUsize ⟨[16, 0]⟩)
                && decide (AdjustLenLimitRequest.toUsize ⟨[16, 0]⟩
                  ≤ (Client.mk .Insecure LenLimit.default 1023).len_limit.acceptableHi))))
      ∧ (((Client.mk .Insecure LenLimit.default 1023).respond_len_limit
              ⟨[16, 0]⟩).1.has_accepted = true →
          ((Client.mk .Insecure LenLimit.default 1023).respond_len_limit
              ⟨[16, 0]⟩).2.channelLenLimit = AdjustLenLimitRequest.toUsize ⟨[16, 0]⟩)
      ∧ (((Client.mk .Insecure LenLimit.default 1023).respond_len_limit
              ⟨[16, 0]⟩).1.has_accepted = false →
          ((Client.mk .Insecure LenLimit.default 1023).respond_len_limit
              ⟨[16, 0]⟩).2 = Client.mk .Insecure LenLimit.default 1023)
      ∧ (((Client.mk .Insecure ⟨MIN_LEN_LIMIT, MAX_LEN_LIMIT, some 2048⟩ 1023).request_len_limit_responded
            (AdjustLenLimitResponse.new true)).2.channelLenLimit = 2048)
      ∧ (((Client.mk .Insecure ⟨MIN_LEN_LIMIT, MAX_LEN_LIMIT, some 2048⟩ 1023).request_len_limit_responded
            (AdjustLenLimitResponse.new false)).2.channelLenLimit
          = (Client.mk .Insecure ⟨MIN_LEN_LIMIT, MAX_LEN_LIMIT, some 2048⟩ 1023).channelLenLimit)
      ∧ (((Client.mk .Insecure ⟨MIN_LEN_LIMIT, MAX_LEN_LIMIT, some 2048⟩ 1023).request_len_limit_responded
            (AdjustLenLimitResponse.new true)).2.len_limit.requested = none)
      ∧ (((Client.mk .Insecure ⟨MIN_LEN_LIMIT, MAX_LEN_LIMIT, some 2048⟩ 1023).request_len_limit_responded
            (AdjustLenLimitResponse.new false)).2.len_limit.requested = none) :=
  C7_len_limit_negotiation (Client.mk .Insecure LenLimit.default 1023)
    (Client.mk .Insecure ⟨MIN_LEN_LIMIT, MAX_LEN_LIMIT, some 2048⟩ 1023)
    ⟨[16, 0]⟩ 2048 (by constructor <;> decide) rfl (by constructor <;> decide)

/-- Claim C8: if ServerHello processing fails while `Handshaking` (for
example the signature does not verify), the session moves to `Insecure`
(the taken-out default, so the handshake context is destroyed), the error is
returned, and no `Secure` state or session secrets are created. -/
theorem C8_server_hello_failure (prims : CryptoPrims) (c : Client)
    (msg : ServerHelloMessage) (ctx : HandshakeContext) (sigKey : List Nat)
    (hstate : c.state = .Handshaking ctx sigKey) :
    (∀ e c2, Client.server_hello prims c msg = (some (.error e), c2) →
        c2.state = .Insecure)
      ∧ (prims.verify sigKey (signedContent ctx.nonce msg.nonce msg.publicKeyBytes)
            msg.signature = false →
          Client.server_hello prims c msg
            = (some (.error (.Crypto .BadServerHelloSignature)),
               { c with state := .Insecure })) := by
  constructor
  · intro e c2 h
    unfold Client.server_hello at h
    rw [hstate] at h
    dsimp only at h
    cases hv : verify_server_hello prims msg ctx.nonce sigKey with
    | error e2 =>
      rw [hv] at h
      dsimp only at h
      have := congrArg Prod.snd h
      dsimp only at this
      rw [← this]
    | ok pr =>
      obtain ⟨spub, nonces⟩ := pr
      rw [hv] at h
      dsimp only at h
      cases hg : generate_session_secrets prims ctx.private_key spub nonces .Client with
      | error e3 =>
        rw [hg] at h
        dsimp only at h
        have := congrArg Prod.snd h
        dsimp only at this
        rw [← this]
      | ok secrets =>
        rw [hg] at h
        dsimp only at h
        have := congrArg Prod.fst h
        dsimp only at this
        exact absurd (Option.some.inj this) (by simp)
  · intro hvf
    unfold Client.server_hello
    rw [hstate]
    dsimp only
    have hv : verify_server_hello prims msg ctx.nonce sigKey
        = .error .BadServerHelloSignature := by
      unfold verify_server_hello
      rw [if_neg (by rw [hvf]; exact Bool.false_ne_true)]
    rw [hv]

/-- Witness for C8: a handshaking client whose verifier rejects returns the
signature error and drops back to `Insecure`. -/
theorem C8_server_hello_failure_witness :
    (∀ e c2, Client.server_hello rejectAllPrims
          (Client.mk (.Handshaking ⟨List.replicate 16 0, [1]⟩ [2]) LenLimit.default 1023)
          ⟨List.replicate 16 1, List.replicate 32 2, List.replicate 64 3⟩
        = (some (.error e), c2) → c2.state = .Insecure)
      ∧ (rejectAllPrims.verify [2]
            (signedContent (List.replicate 16 0) (List.replicate 16 1)
              (List.replicate 32 2))
            (List.replicate 64 3) = false →
          Client.server_hello rejectAllPrims
              (Client.mk (.Handshaking ⟨List.replicate 16 0, [1]⟩ [2]) LenLimit.default 1023)
              ⟨List.replicate 16 1, List.replicate 32 2, List.replicate 64 3⟩
            = (some (.error (.Crypto .BadServerHelloSignature)),
               { Client.mk (.Handshaking ⟨List.replicate 16 0, [1]⟩ [2]) LenLimit.default 1023
                  with state := .Insecure })) :=
  C8_server_hello_failure rejectAllPrims
    (Client.mk (.Handshaking ⟨List.replicate 16 0, [1]⟩ [2]) LenLimit.default 1023)
    ⟨List.replicate 16 1, List.replicate 32 2, List.replicate 64 3⟩
    ⟨List.replicate 16 0, [1]⟩ [2] rfl

theorem setSlice_full (a : List Nat) (n : Nat) (ha : a.length = n) :
    setSlice (List.replicate n 0) 0 a = a := by
  unfold setSlice
  simp [ha, List.drop_replicate]

theorem clientHello_toMessage_payload (m : ClientHelloMessage)
    (hn : m.nonce.length = NONCE_LEN)
    (hp : m.publicKeyBytes.length = X25519_PUBLIC_KEY_LEN) :
    m.toMessage.payload = m.nonce ++ m.publicKeyBytes := by
  show setSlice (setSlice (List.replicate CLIENT_HELLO_MSG_LEN 0) 0 m.nonce)
      NONCE_LEN m.publicKeyBytes = m.nonce ++ m.publicKeyBytes
  rw [show CLIENT_HELLO_MSG_LEN = 16 + 32 from rfl, show NONCE_LEN = 16 from rfl]
  exact setSlice2_eq _ _ 16 32 (by simpa [NONCE_LEN] using hn)
    (by simpa [X25519_PUBLIC_KEY_LEN] using hp)

theorem serverHello_toMessage_payload (m : ServerHelloMessage)
    (hn : m.nonce.length = NONCE_LEN)
    (hp : m.publicKeyBytes.length = X25519_PUBLIC_KEY_LEN)
    (hs : m.signature.length = ED25519_SIGNATURE_LEN) :
    m.toMessage.payload = m.nonce ++ m.publicKeyBytes ++ m.signature := by
  show setSlice
      (setSlice (setSlice (List.replicate SERVER_HELLO_MSG_LEN 0) 0 m.nonce)
        NONCE_LEN m.publicKeyBytes)
      (NONCE_LEN + X25519_PUBLIC_KEY_LEN) m.signature
    = m.nonce ++ m.publicKeyBytes ++ m.signature
  rw [show SERVER_HELLO_MSG_LEN = 16 + 32 + 64 from rfl,
    show NONCE_LEN + X25519_PUBLIC_KEY_LEN = 16 + 32 from rfl,
    show NONCE_LEN = 16 from rfl]
  exact setSlice3_eq _ _ _ 16 32 64 (by simpa [NONCE_LEN] using hn)
    (by simpa [X25519_PUBLIC_KEY_LEN] using hp)
    (by simpa [ED25519_SIGNATURE_LEN] using hs)

theorem adjustLenLimitRequest_toMessage_payload (m : AdjustLenLimitRequest)
    (h : m.lenLimit.length = 2) :
    m.toMessage.payload = m.lenLimit := by
  show setSlice (List.replicate 2 0) 0 m.lenLimit = m.lenLimit
  exact setSlice_full _ _ h

theorem adjustLenLimitResponse_toMessage_payload (m : AdjustLenLimitResponse)
    (h : m.hasAccepted.length = 1) :
    m.toMessage.payload = m.hasAccepted := by
  show setSlice (List.replicate 1 0) 0 m.hasAccepted = m.hasAccepted
  exact setSlice_full _ _ h

/-- Claim C9: converting each well-formed plain message to a wire frame and
parsing the frame back yields a message equal to the original, for all six
frame types. -/
theorem C9_plain_message_roundtrip (L : Nat)
    (ch : ClientHelloMessage) (sh : ServerHelloMessage)
    (req : AdjustLenLimitRequest) (resp : AdjustLenLimitResponse)
    (hchn : ch.nonce.length = NONCE_LEN)
    (hchp : ch.publicKeyBytes.length = X25519_PUBLIC_KEY_LEN)
    (hshn : sh.nonce.length = NONCE_LEN)
    (hshp : sh.publicKeyBytes.length = X25519_PUBLIC_KEY_LEN)
    (hshs : sh.signature.length = ED25519_SIGNATURE_LEN)
    (hreq : req.lenLimit.length = 2) (hresp : resp.hasAccepted.length = 1) :
    (InnerStream.recv L (serializeFrame ch.toMessage) = .ok (ch.toMessage, [])
        ∧ ClientHelloMessage.tryFromMessage ch.toMessage = .ok ch)
      ∧ (InnerStream.recv L (serializeFrame sh.toMessage) = .ok (sh.toMessage, [])
        ∧ ServerHelloMessage.tryFromMessage sh.toMessage = .ok sh)
      ∧ (InnerStream.recv L (serializeFrame (DisconnectMessage.toMessage ⟨⟩))
            = .ok (DisconnectMessage.toMessage ⟨⟩, [])
        ∧ DisconnectMessage.tryFromMessage (DisconnectMessage.toMessage ⟨⟩) = .ok ⟨⟩)
      ∧ (InnerStream.recv L (serializeFrame (DowngradeMessage.toMessage ⟨⟩))
            = .ok (DowngradeMessage.toMessage ⟨⟩, [])
        ∧ DowngradeMessage.tryFromMessage (DowngradeMessage.toMessage ⟨⟩) = .ok ⟨⟩)
      ∧ (InnerStream.recv L (serializeFrame req.toMessage) = .ok (req.toMessage, [])
        ∧ AdjustLenLimitRequest.tryFromMessage req.toMessage = .ok req)
      ∧ (InnerStream.recv L (serializeFrame resp.toMessage) = .ok (resp.toMessage, [])
        ∧ AdjustLenLimitResponse.tryFromMessage resp.toMessage = .ok resp) := by
  have hchpl := clientHello_toMessage_payload ch hchn hchp
  have hchlen : ch.toMessage.payload.length = 48 := by
    rw [hchpl]
    simp [hchn, hchp, NONCE_LEN, X25519_PUBLIC_KEY_LEN]
  have hshpl := serverHello_toMessage_payload sh hshn hshp hshs
  have hshlen : sh.toMessage.payload.length = 112 := by
    rw [hshpl]
    simp [hshn, hshp, hshs, NONCE_LEN, X25519_PUBLIC_KEY_LEN, ED25519_SIGNATURE_LEN]
  have hreqpl := adjustLenLimitRequest_toMessage_payload req hreq
  have hreqlen : req.toMessage.payload.length = 2 := by rw [hreqpl, hreq]
  have hresppl := adjustLenLimitResponse_toMessage_payload resp hresp
  have hresplen : resp.toMessage.payload.length = 1 := by rw [hresppl, hresp]
  refine ⟨⟨?_, ?_⟩, ⟨?_, ?_⟩, ⟨?_, ?_⟩, ⟨?_, ?_⟩, ⟨?_, ?_⟩, ⟨?_, ?_⟩⟩
  · exact recv_serializeFrame L _ rfl (by omega)
  · unfold ClientHelloMessage.tryFromMessage
    rw [if_neg (by rw [hchlen]; exact fun h => absurd h (by decide))]
    rw [hchpl]
    rw [show NONCE_LEN = 16 from rfl, show X25519_PUBLIC_KEY_LEN = 32 from rfl]
    rw [List.take_left' (by simpa [NONCE_LEN] using hchn)]
    rw [List.drop_left' (by simpa [NONCE_LEN] using hchn)]
    rw [List.take_of_length_le (by simp [hchp, X25519_PUBLIC_KEY_LEN])]
  · exact recv_serializeFrame L _ rfl (by omega)
  · unfold ServerHelloMessage.tryFromMessage
    rw [if_neg (by rw [hshlen]; exact fun h => absurd h (by decide))]
    rw [hshpl, List.append_assoc]
    rw [show NONCE_LEN = 16 from rfl, show X25519_PUBLIC_KEY_LEN = 32 from rfl,
      show ED25519_SIGNATURE_LEN = 64 from rfl]
    rw [List.take_left' (by simpa [NONCE_LEN] using hshn)]
    rw [List.drop_left' (by simpa [NONCE_LEN] using hshn)]
    rw [List.take_left' (by simpa [X25519_PUBLIC_KEY_LEN] using hshp)]
    rw [show (16 + 32 : Nat) = 16 + 32 from rfl]
    have hd2 : (sh.nonce ++ (sh.publicKeyBytes ++ sh.signature)).drop (16 + 32)
        = sh.signature := by
      rw [show (16 + 32 : Nat) = sh.nonce.length + 32 from by
        simp [hshn, NONCE_LEN]]
      rw [List.drop_append]
      exact List.drop_left' (by simpa [X25519_PUBLIC_KEY_LEN] using hshp)
    rw [hd2]
    rw [List.take_of_length_le (by simp [hshs, ED25519_SIGNATURE_LEN])]
  · exact recv_serializeFrame L _ rfl (by decide)
  · rfl
  · exact recv_serializeFrame L _ rfl (by decide)
  · rfl
  · exact recv_serializeFrame L _ rfl (by omega)
  · unfold AdjustLenLimitRequest.tryFromMessage
    rw [if_neg (by rw [hreqlen]; exact fun h => absurd h (by decide))]
    rw [hreqpl, List.take_of_length_le (by omega)]
  · exact recv_serializeFrame L _ rfl (by omega)
  · unfold AdjustLenLimitResponse.tryFromMessage
    rw [if_neg (by rw [hresplen]; exact fun h => absurd h (by decide))]
    rw [hresppl, List.take_of_length_le (by omega)]

/-- Witness for C9 at concrete messages of every type. -/
theorem C9_plain_message_roundtrip_witness :
    (InnerStream.recv 1023
          (serializeFrame (ClientHelloMessage.mk (List.range 16)
            ((List.range 48).drop 16)).toMessage)
        = .ok ((ClientHelloMessage.mk (List.range 16) ((List.range 48).drop 16)).toMessage, [])
      ∧ ClientHelloMessage.tryFromMessage
          (ClientHelloMessage.mk (List.range 16) ((List.range 48).drop 16)).toMessage
        = .ok (ClientHelloMessage.mk (List.range 16) ((List.range 48).drop 16)))
      ∧ (InnerStream.recv 1023
            (serializeFrame (ServerHelloMessage.mk (List.replicate 16 1)
              (List.replicate 32 2) (List.replicate 64 3)).toMessage)
          = .ok ((ServerHelloMessage.mk (List.replicate 16 1) (List.replicate 32 2)
              (List.replicate 64 3)).toMessage, [])
        ∧ ServerHelloMessage.tryFromMessage
            (ServerHelloMessage.mk (List.replicate 16 1) (List.replicate 32 2)
              (List.replicate 64 3)).toMessage
          = .ok (ServerHelloMessage.mk (List.replicate 16 1) (List.replicate 32 2)
              (List.replicate 64 3)))
      ∧ (InnerStream.recv 1023 (serializeFrame (DisconnectMessage.toMessage ⟨⟩))
            = .ok (DisconnectMessage.toMessage ⟨⟩, [])
        ∧ DisconnectMessage.tryFromMessage (DisconnectMessage.toMessage ⟨⟩) = .ok ⟨⟩)
      ∧ (InnerStream.recv 1023 (serializeFrame (DowngradeMessage.toMessage ⟨⟩))
            = .ok (DowngradeMessage.toMessage ⟨⟩, [])
        ∧ DowngradeMessage.tryFromMessage (DowngradeMessage.toMessage ⟨⟩) = .ok ⟨⟩)
      ∧ (InnerStream.recv 1023 (serializeFrame (AdjustLenLimitRequest.mk [16, 0]).toMessage)
            = .ok ((AdjustLenLimitRequest.mk [16, 0]).toMessage, [])
        ∧ AdjustLenLimitRequest.tryFromMessage (AdjustLenLimitRequest.mk [16, 0]).toMessage
          = .ok (AdjustLenLimitRequest.mk [16, 0]))
      ∧ (InnerStream.recv 1023 (serializeFrame (AdjustLenLimitResponse.mk [1]).toMessage)
            = .ok ((AdjustLenLimitResponse.mk [1]).toMessage, [])
        ∧ AdjustLenLimitResponse.tryFromMessage (AdjustLenLimitResponse.mk [1]).toMessage
          = .ok (AdjustLenLimitResponse.mk [1])) :=
  C9_plain_message_roundtrip 1023
    (ClientHelloMessage.mk (List.range 16) ((List.range 48).drop 16))
    (ServerHelloMessage.mk (List.replicate 16 1) (List.replicate 32 2)
      (List.replicate 64 3))
    (AdjustLenLimitRequest.mk [16, 0]) (AdjustLenLimitResponse.mk [1])
    (by decide) (by decide) (by decide) (by decide) (by decide) (by decide) (by decide)

/-- Claim C10: the serialized ClientHello frame for nonce bytes 00..0F and
public key bytes 10..2F is exactly `01 01 00 30` followed by the 48 payload
bytes 00..2F (52 bytes), parsing those bytes yields an equivalent
ClientHello, and the serialized Disconnect frame is exactly `03 01 00 00`. -/
theorem C10_concrete_frames :
    serializeFrame (ClientHelloMessage.mk (List.range 16)
          ((List.range 48).drop 16)).toMessage
        = [1, 1, 0, 48] ++ List.range 48
      ∧ ([1, 1, 0, 48] ++ List.range 48).length = 52
      ∧ InnerStream.recv MIN_LEN_LIMIT ([1, 1, 0, 48] ++ List.range 48)
          = .ok (Message.mk ⟨.ClientHello, .V0_1, 48⟩ (List.range 48), [])
      ∧ ClientHelloMessage.tryFromMessage
            (Message.mk ⟨.ClientHello, .V0_1, 48⟩ (List.range 48))
          = .ok (ClientHelloMessage.mk (List.range 16) ((List.range 48).drop 16))
      ∧ serializeFrame (DisconnectMessage.toMessage ⟨⟩) = [3, 1, 0, 0] := by
  refine ⟨by decide, by decide, by decide, by decide, by decide⟩

end Hermit
